import Mathlib

/-!
Verification development for the rushdex trading engine.

This file shallowly embeds the task-orchestration core of the repository
(`src/lib/RushEngine.py`, `src/lib/RushTask.py`, `src/lib/tools.py`,
`src/exchange/aster/AsterExchangeAccountV1.py`) into Lean 4 and settles the
frozen claims about it.

Modelling conventions, used consistently below:
* Python `dict`s (insertion ordered, unique keys) are association lists
  `List (String × α)`; `dictInsert` mirrors `d[k] = v` (replace in place or
  append), `dictPop` mirrors `d.pop(k)` on a present key, `List.lookup`
  mirrors `d.get(k)`.
* Decimal number strings (prices, quantities) are modelled by their exact
  rational values; Python's binary floating point arithmetic is modelled by
  exact arithmetic over `ℚ`.  Step-size strings keep their textual form
  because `format_to_stepsize` parses their digits.
* Wall-clock reads (`now()`) and random draws are oracle inputs threaded as
  explicit parameters; network calls return oracle-provided values, with
  `Except` capturing raised exceptions.
* The timestamp recorded on a task-log entry by `change_status` is an
  environment input that no claim observes; it is fixed to `0`.
-/

/-- Kernel of Python `str.__str__` on an optional string: `str(None)` is the
literal string `"None"`, mirroring `str(update_order.get("i"))` in
`RushTask.order_update_callback`. -/
def pyStr : Option String → String
  | none => "None"
  | some s => s

/-- Python `d[k] = v` on an insertion-ordered dict: replace the value of an
existing key in place, otherwise append the binding at the end. -/
def dictInsert {α : Type} (k : String) (v : α) : List (String × α) → List (String × α)
  | [] => [(k, v)]
  | (k', v') :: rest => if k' == k then (k, v) :: rest else (k', v') :: dictInsert k v rest

/-- Python `d.pop(k)` on a dict whose key is present: remove the (unique)
binding of `k`.  On an absent key the source raises `KeyError`; every call
site below either guards with `in` or owns the key, so removal of the first
matching binding is the faithful model. -/
def dictPop {α : Type} (k : String) (l : List (String × α)) : List (String × α) :=
  l.eraseP (fun p => p.1 == k)

/-- Update the value stored under key `k` (Python `d[k].mutate()` applied to
the value object held by the dict). -/
def dictUpdate {α : Type} (k : String) (f : α → α) (l : List (String × α)) :
    List (String × α) :=
  l.map (fun p => if p.1 == k then (p.1, f p.2) else p)

/-- Decidable equality for `Except`, needed to derive decidable equality of
the oracle records below. -/
instance {ε α : Type} [DecidableEq ε] [DecidableEq α] : DecidableEq (Except ε α) := fun a b =>
  match a, b with
  | Except.error x, Except.error y => decidable_of_iff (x = y) (by simp)
  | Except.error _, Except.ok _ => Decidable.isFalse (by simp)
  | Except.ok _, Except.error _ => Decidable.isFalse (by simp)
  | Except.ok x, Except.ok y => decidable_of_iff (x = y) (by simp)

/-! ## `src/lib/tools.py` -/

/-- Python `s.split(c)` on the character list of a string (kept structurally
recursive so concrete step-size strings evaluate inside proofs). -/
def splitChar (c : Char) : List Char → List (List Char)
  | [] => [[]]
  | x :: xs =>
      if x = c then [] :: splitChar c xs
      else
        match splitChar c xs with
        | [] => [[x]]
        | h :: t => (x :: h) :: t

/-- Python `s.rstrip(c)`: drop trailing occurrences of `c`. -/
def rstripChar (c : Char) (l : List Char) : List Char :=
  (l.reverse.dropWhile (fun x => x = c)).reverse

/-- Value of a digit string, `int("...")` on a well-formed run of digits. -/
def natOfDigits (l : List Char) : Nat :=
  l.foldl (fun n c => n * 10 + (c.toNat - '0'.toNat)) 0

/-- Python `float(step_size)` on a decimal literal such as `"0.00100000"`,
modelled exactly over `ℚ`. -/
def decToRat (s : String) : ℚ :=
  match splitChar '.' s.toList with
  | [intPart] => (natOfDigits intPart : ℚ)
  | [intPart, fracPart] =>
      (natOfDigits intPart : ℚ) + (natOfDigits fracPart : ℚ) / 10 ^ fracPart.length
  | _ => 0

/-- Decimal-place count that `format_to_stepsize` extracts from a step-size
string: the length of the fractional part with trailing zeros stripped, or
the raw fractional length when the fractional part is all zeros, or `0` when
there is no dot (`src/lib/tools.py` lines 14–23, verbatim logic). -/
def stepDecimalPlaces (step_size : String) : Nat :=
  if step_size.toList.contains '.' then
    let afterDot := (splitChar '.' step_size.toList).getD 1 []
    let decimal_part := rstripChar '0' afterDot
    if decimal_part.isEmpty then afterDot.length else decimal_part.length
  else 0

/-- Python 3 `round(x)` to an integer: round half to even. -/
def roundHalfEven (q : ℚ) : ℤ :=
  if q - (⌊q⌋ : ℚ) < 1 / 2 then ⌊q⌋
  else if 1 / 2 < q - (⌊q⌋ : ℚ) then ⌊q⌋ + 1
  else if ⌊q⌋ % 2 = 0 then ⌊q⌋ else ⌊q⌋ + 1

/-- `format_to_stepsize` from `src/lib/tools.py`, modelled by the exact value
of the string it returns: the input rounded (Python `round`, half to even) to
`stepDecimalPlaces step_size` decimal places and then formatted with that
many digits, which denotes exactly the rounded rational. -/
def format_to_stepsize (number : ℚ) (step_size : String) : ℚ :=
  let dp := stepDecimalPlaces step_size
  (roundHalfEven (number * 10 ^ dp) : ℚ) / 10 ^ dp

/-- Spec-side definition for comparison (C4): the largest multiple of `step`
not exceeding `x`, i.e. "rounded down to the market's quantity step". -/
def specFloorToStep (x step : ℚ) : ℚ :=
  (⌊x / step⌋ : ℚ) * step

/-! ## Order data model (`src/model/…`) -/

inductive OrderSide where
  | BUY
  | SELL
deriving DecidableEq, Repr, Inhabited

inductive OrderType where
  | LIMIT
  | MARKET
deriving DecidableEq, Repr, Inhabited

inductive OrderTimeInForce where
  | GTC
  | IOC
  | FOK
  | GTX
deriving DecidableEq, Repr, Inhabited

/-- Order purpose tag (`OrderHoldType` in `src/model/Order.py`); `opn`/`cls`
stand for the source's `open`/`close`, which are Lean keywords. -/
inductive OrderHoldType where
  | opn
  | cls
deriving DecidableEq, Repr, Inhabited

/-- `OrderParams` (`src/model/OrderParams.py`).  `price` and `quantity` are
decimal strings in the source, modelled by their rational values;
`timeInForce` defaults to GTC in the source and is set to `None` when an
order is converted to a market order. -/
structure OrderParams where
  symbol : String
  side : OrderSide
  type : OrderType
  timestamp : Nat
  price : Option ℚ
  quantity : Option ℚ
  timeInForce : Option OrderTimeInForce
deriving DecidableEq, Repr, Inhabited

/-- The exchange event pushed over the account stream: the `"o"` object with
its `"X"` (execution status) and `"i"` (order id) members, the only fields
the core consumes. -/
structure OrderUpdateData where
  execStatus : Option String
  orderId : Option String
deriving DecidableEq, Repr, Inhabited

/-- A stream message as consumed by `order_update_callback`: optional `"o"`
member. -/
structure EventMsg where
  o : Option OrderUpdateData
deriving DecidableEq, Repr, Inhabited

/-- Fill-confirmation payload stored on a `FilledOrder`: either the raw
websocket message (normal GTX fill) or the synthetic dict built by
`handle_failed_limit_order` around the original expiry message. -/
inductive FilledPayload where
  | ws (message : EventMsg)
  | fallback (original : EventMsg)
deriving DecidableEq, Repr, Inhabited

/-- Cancellation payload stored on a `CanceledOrder`: the expiry event (from
`handle_failed_limit_order`) or the exchange's cancel response. -/
inductive CancelPayload where
  | fromEvent (message : EventMsg)
  | exchange (raw : String)
deriving DecidableEq, Repr, Inhabited

/-- `Order` (`src/model/Order.py`).  Of the raw `order_result` dict only
`order_result["orderId"]` is ever read (always through `str(...)`), so the
model keeps that string. -/
structure Order where
  price_time : Nat
  hold_type : OrderHoldType
  order_params : OrderParams
  order_result_orderId : String
  account_id : String
deriving DecidableEq, Repr, Inhabited

/-- `FilledOrder` (`src/model/FilledOrder.py`): an `Order` plus the optional
fill confirmation (market orders get `None`). -/
structure FilledOrder extends Order where
  filled_result : Option FilledPayload
deriving DecidableEq, Repr, Inhabited

/-- `FilledOrder.from_order`. -/
def FilledOrder.from_order (order : Order) (filled_result : Option FilledPayload) :
    FilledOrder :=
  { order with filled_result := filled_result }

/-- `CanceledOrder` (`src/model/CanceledOrder.py`). -/
structure CanceledOrder extends Order where
  cancel_result : CancelPayload
deriving DecidableEq, Repr, Inhabited

/-- `CanceledOrder.from_order`. -/
def CanceledOrder.from_order (order : Order) (cancel_result : CancelPayload) :
    CanceledOrder :=
  { order with cancel_result := cancel_result }

/-- `PositionPrice` (`src/model/PositionPrice.py`), the depth quote. -/
structure PositionPrice where
  ask_price : ℚ
  bid_price : ℚ
  timestamp : Nat
deriving DecidableEq, Repr, Inhabited

/-! ## Account and order placement (`src/lib/Account.py`,
`src/exchange/aster/AsterExchangeAccountV1.py`) -/

/-- An account together with its exchange binding's rounding metadata: the
`Account` configuration fields plus the `symbols` map (market → LOT_SIZE
`stepSize` string) that `AsterExchangeAccountV1` fetches at init. -/
structure AccountCfg where
  id : String
  depth_position : Nat
  target_amount : ℚ
  amount_deviation : ℚ
  hold_time : ℚ
  hold_time_deviation : ℚ
  symbols : List (String × String)
deriving DecidableEq, Repr, Inhabited

/-- Quantity derivation inside `AsterExchangeAccountV1.order` (lines 90–104)
when `params.quantity` is omitted: perturb the target notional by
`amount_deviation * (random()*2 - 1)` with `r` the `random()` draw, reject a
quantity below one step, otherwise format `notional / price` to the step
size. -/
def derive_quantity (target_amount amount_deviation r price : ℚ) (step_size : String) :
    Except String ℚ :=
  let deviation_amount := target_amount * amount_deviation * (r * 2 - 1)
  let target := target_amount + deviation_amount
  if target / price < decToRat step_size then
    Except.error "order notional below the step minimum"
  else
    Except.ok (format_to_stepsize (target / price) step_size)

/-- Build the `Order` returned by a successful placement
(`AsterExchangeAccountV1.order` line 111). -/
def place_order (account : AccountCfg) (params : OrderParams) (hold_type : OrderHoldType)
    (price_time : Nat) (resp : Except String String) : Except String Order :=
  match resp with
  | Except.error e => Except.error e
  | Except.ok oid =>
      Except.ok
        { price_time := price_time, hold_type := hold_type, order_params := params,
          order_result_orderId := oid, account_id := account.id }

/-- `AsterExchangeAccountV1.order` (lines 86–112).  `r` is the `random()`
draw used by the notional perturbation; `resp` is the exchange response,
`Except.error` covering both transport failures and business error codes
(`order_result.get("code") is not None`). -/
def account_order (account : AccountCfg) (params : OrderParams) (hold_type : OrderHoldType)
    (price_time : Nat) (r : ℚ) (resp : Except String String) : Except String Order :=
  match params.quantity with
  | some _ => place_order account params hold_type price_time resp
  | none =>
    match params.price with
    | none => Except.error "price is None"
    | some price =>
      match account.symbols.lookup params.symbol with
      | none => Except.error "unknown symbol"
      | some step_size =>
        match derive_quantity account.target_amount account.amount_deviation r price
            step_size with
        | Except.error e => Except.error e
        | Except.ok q =>
            place_order account { params with quantity := some q } hold_type price_time resp

/-! ## Task state machine (`src/lib/RushTask.py`) -/

/-- `RushTaskStatus`. -/
inductive RushTaskStatus where
  | CREATED
  | STARTED
  | COMPLETED
  | CANCELED
  | FAILED
deriving DecidableEq, Repr, Inhabited

/-- `RushTaskStage`. -/
inductive RushTaskStage where
  | prepare
  | open_limit
  | open_market
  | hold
  | close_limit
  | close_market
  | completed
deriving DecidableEq, Repr, Inhabited

/-- `RushTaskLog`: one transition-log entry, appended by `change_status`. -/
structure RushTaskLog where
  timestamp : Nat
  preview_status : RushTaskStatus
  current_status : RushTaskStatus
  preview_stage : RushTaskStage
  current_stage : RushTaskStage
  message : Option String
deriving DecidableEq, Repr, Inhabited

/-- The mutable fields of a `RushTask` plus the two bound accounts
(`first_account`/`second_account` reference the `ExchangeAccount` handles;
the model keeps the configuration each handle exposes). -/
structure RushTaskState where
  id : String
  status : RushTaskStatus
  stage : RushTaskStage
  symbol : String
  first_account : AccountCfg
  second_account : AccountCfg
  filled_orders : List FilledOrder
  open_orders : List (String × Order)
  cancel_orders : List CanceledOrder
  logs : List RushTaskLog
  expired_order_id_map : List (String × EventMsg)
deriving DecidableEq, Repr, Inhabited

/-- `RushTask.change_status` (lines 102–123): no-op when the status is
unchanged, otherwise overwrite it — there is no forward-only guard — and
append one log entry. -/
def change_status (st : RushTaskState) (status : RushTaskStatus) : RushTaskState :=
  if st.status = status then st
  else
    let entry : RushTaskLog :=
      { timestamp := 0, preview_status := st.status, current_status := status,
        preview_stage := st.stage, current_stage := st.stage,
        message := some "status change" }
    { st with status := status, logs := st.logs ++ [entry] }

/-- `RushTask.change_stage` (lines 125–136): no-op when unchanged, otherwise
overwrite (it does not append to `logs`). -/
def change_stage (st : RushTaskState) (stage : RushTaskStage) : RushTaskState :=
  if st.stage = stage then st else { st with stage := stage }

/-- `RushTask.finish` (lines 449–455). -/
def finish_task (st : RushTaskState) : RushTaskState :=
  change_stage (change_status st RushTaskStatus.COMPLETED) RushTaskStage.completed

/-- `RushTask.failed` (lines 457–462). -/
def failed_task (st : RushTaskState) : RushTaskState :=
  change_status st RushTaskStatus.FAILED

/-- Coroutines a task spawns with `asyncio.create_task`. -/
inductive Spawn where
  | handleFailed (order_id : String) (message : EventMsg)
  | openMarketTask
  | closeMarketTask
  | holdTask
deriving DecidableEq, Repr, Inhabited

/-- Result of running one task coroutine: the mutated task state, the
coroutines it spawned, the orders its placement calls successfully created,
and the exception it raised, if any (an exception in a spawned coroutine
escapes to the asyncio loop's global handler). -/
structure TStep where
  task : RushTaskState
  spawns : List Spawn
  placed : List Order
  raised : Option String
deriving DecidableEq, Repr, Inhabited

/-- `RushTask.limit_order_on_filled` (lines 214–234): move the order from
outstanding to filled (recording the payload), then advance the stage and
spawn the corresponding market-conversion coroutine. -/
def limit_order_on_filled (st : RushTaskState) (order : Order) (message : FilledPayload) :
    RushTaskState × List Spawn :=
  let order_id := order.order_result_orderId
  let filled_order := FilledOrder.from_order order (some message)
  let st := { st with filled_orders := st.filled_orders ++ [filled_order],
                      open_orders := dictPop order_id st.open_orders }
  if order.hold_type = OrderHoldType.opn then
    (change_stage st RushTaskStage.open_market, [Spawn.openMarketTask])
  else
    (change_stage st RushTaskStage.close_market, [Spawn.closeMarketTask])

/-- `RushTask.order_update_callback` (lines 185–212): filter for
FILLED/EXPIRED, spawn the failed-limit handler on EXPIRED, ignore unknown
order ids, and run the fill path synchronously on FILLED. -/
def order_update_callback (st : RushTaskState) (message : EventMsg) :
    RushTaskState × List Spawn :=
  match message.o with
  | none => (st, [])
  | some update_order =>
    match update_order.execStatus with
    | none => (st, [])
    | some current_status =>
      if current_status ≠ "FILLED" ∧ current_status ≠ "EXPIRED" then (st, [])
      else
        let order_id := pyStr update_order.orderId
        if current_status = "EXPIRED" then
          (st, [Spawn.handleFailed order_id message])
        else if (st.open_orders.lookup order_id).isNone then (st, [])
        else
          match st.open_orders.lookup order_id with
          | none => (st, [])
          | some order => limit_order_on_filled st order (FilledPayload.ws message)

/-- Oracle for one fallback market-order placement inside
`handle_failed_limit_order`: the `now()` read, the `random()` draw consumed
by `account_order` (unused when the copied params carry a quantity), and the
exchange response. -/
structure FallbackOracle where
  tNow : Nat
  r : ℚ
  resp : Except String String
deriving DecidableEq, Repr, Inhabited

/-- `RushTask.handle_failed_limit_order` (lines 155–183).  If the order id is
not yet registered the event is parked in the early-expiry buffer; otherwise
the order moves to the canceled list, the same intent is re-submitted as a
market order on the same account, and the new order is fed through
`limit_order_on_filled` as if it had filled. -/
def handle_failed_limit_order (st : RushTaskState) (order_id : String) (message : EventMsg)
    (orc : FallbackOracle) : TStep :=
  match st.open_orders.lookup order_id with
  | none =>
      let buffer := dictInsert order_id message st.expired_order_id_map
      { task := { st with expired_order_id_map := buffer },
        spawns := [], placed := [], raised := none }
  | some order =>
      let canceled := CanceledOrder.from_order order (CancelPayload.fromEvent message)
      let st := { st with cancel_orders := st.cancel_orders ++ [canceled],
                          open_orders := dictPop order_id st.open_orders }
      let account :=
        if order.account_id = st.first_account.id then st.first_account else st.second_account
      let order_params :=
        { order.order_params with
            type := OrderType.MARKET, timeInForce := none, timestamp := orc.tNow,
            price := none }
      match account_order account order_params order.hold_type order.price_time orc.r
          orc.resp with
      | Except.error e => { task := st, spawns := [], placed := [], raised := some e }
      | Except.ok new_order =>
          let new_order_id := new_order.order_result_orderId
          let st := { st with open_orders := dictInsert new_order_id new_order st.open_orders }
          let (st, spawns) := limit_order_on_filled st new_order (FilledPayload.fallback message)
          { task := st, spawns := spawns, placed := [new_order], raised := none }

/-- Oracle for one `open_market`/`close_market` run: cancel response, the two
`now()` reads, and the market-order placement inputs. -/
structure MarketOracle where
  cancelResp : Except String CancelPayload
  t1 : Nat
  t2 : Nat
  r : ℚ
  orderResp : Except String String
deriving DecidableEq, Repr, Inhabited

/-- `RushTask.open_market` (lines 236–279).  Zero outstanding orders means
both legs filled simultaneously: advance to HOLD exactly once, guarded by the
stage check.  Otherwise cancel the remaining leg, re-submit it as a market
order on the same account and record it as filled with no confirmation
payload. -/
def open_market (st : RushTaskState) (orc : MarketOracle) : TStep :=
  match st.open_orders with
  | [] =>
      if st.stage ≠ RushTaskStage.hold then
        { task := change_stage st RushTaskStage.hold, spawns := [Spawn.holdTask],
          placed := [], raised := none }
      else
        { task := st, spawns := [], placed := [], raised := none }
  | (open_order_id, open_order) :: _ =>
      let matching := [st.first_account, st.second_account].filter
        (fun a => a.id == open_order.account_id)
      if matching.length ≠ 1 then
        { task := st, spawns := [], placed := [],
          raised := some "open_market: matched account count is not 1" }
      else
        let open_order_account := matching.getD 0 st.first_account
        match orc.cancelResp with
        | Except.error e => { task := st, spawns := [], placed := [], raised := some e }
        | Except.ok cancel_payload =>
            let canceled_order := CanceledOrder.from_order open_order cancel_payload
            let st := { st with open_orders := dictPop open_order_id st.open_orders,
                                cancel_orders := st.cancel_orders ++ [canceled_order] }
            let open_market_order_params :=
              { canceled_order.order_params with
                  type := OrderType.MARKET, timeInForce := none, timestamp := orc.t1,
                  price := none }
            let st := change_stage st RushTaskStage.open_market
            match account_order open_order_account open_market_order_params
                OrderHoldType.opn orc.t2 orc.r orc.orderResp with
            | Except.error e => { task := st, spawns := [], placed := [], raised := some e }
            | Except.ok open_market_order =>
                let filled_order := FilledOrder.from_order open_market_order none
                let st := { st with filled_orders := st.filled_orders ++ [filled_order] }
                { task := st, spawns := [Spawn.holdTask], placed := [open_market_order],
                  raised := none }

/-- `RushTask.close_market` (lines 281–324), the symmetric close-phase
variant: the simultaneous branch advances to COMPLETED via `finish` exactly
once; the remaining-leg branch cancels, re-submits as a market order, records
the fill with no confirmation payload, and finishes. -/
def close_market (st : RushTaskState) (orc : MarketOracle) : TStep :=
  match st.open_orders with
  | [] =>
      if st.stage ≠ RushTaskStage.completed then
        let st := change_stage st RushTaskStage.completed
        { task := finish_task st, spawns := [], placed := [], raised := none }
      else
        { task := st, spawns := [], placed := [], raised := none }
  | (open_order_id, open_order) :: _ =>
      let matching := [st.first_account, st.second_account].filter
        (fun a => a.id == open_order.account_id)
      if matching.length ≠ 1 then
        { task := st, spawns := [], placed := [],
          raised := some "close_market: matched account count is not 1" }
      else
        let open_order_account := matching.getD 0 st.first_account
        match orc.cancelResp with
        | Except.error e => { task := st, spawns := [], placed := [], raised := some e }
        | Except.ok cancel_payload =>
            let canceled_order := CanceledOrder.from_order open_order cancel_payload
            let st := { st with open_orders := dictPop open_order_id st.open_orders,
                                cancel_orders := st.cancel_orders ++ [canceled_order] }
            let close_market_order_params :=
              { canceled_order.order_params with
                  type := OrderType.MARKET, timeInForce := none, timestamp := orc.t1,
                  price := none }
            let st := change_stage st RushTaskStage.close_market
            match account_order open_order_account close_market_order_params
                OrderHoldType.cls orc.t2 orc.r orc.orderResp with
            | Except.error e => { task := st, spawns := [], placed := [], raised := some e }
            | Except.ok close_market_order =>
                let filled_order := FilledOrder.from_order close_market_order none
                let st := { st with filled_orders := st.filled_orders ++ [filled_order] }
                { task := finish_task st, spawns := [], placed := [close_market_order],
                  raised := none }

/-- Registration loop shared by `run` (lines 438–447) and `close_limit`
(lines 409–418): on the first exception among the gather results mark the
task FAILED and stop (an already-registered order from the same gather stays
registered); otherwise register each order and, when its id is already in the
early-expiry buffer, immediately replay `handle_failed_limit_order` with the
buffered message (each replay consumes one fallback oracle); a replay that
raises aborts the loop and propagates. -/
def register_orders (st : RushTaskState) (results : List (Except String Order))
    (fbs : List FallbackOracle) : TStep :=
  match results with
  | [] => { task := st, spawns := [], placed := [], raised := none }
  | Except.error _ :: _ =>
      { task := failed_task st, spawns := [], placed := [], raised := none }
  | Except.ok order :: rest =>
      let order_id := order.order_result_orderId
      let st := { st with open_orders := dictInsert order_id order st.open_orders }
      match st.expired_order_id_map.lookup order_id with
      | none => register_orders st rest fbs
      | some buffered =>
          let h := handle_failed_limit_order st order_id buffered (fbs.headD default)
          match h.raised with
          | some e =>
              { task := h.task, spawns := h.spawns, placed := h.placed, raised := some e }
          | none =>
              let r := register_orders h.task rest (fbs.drop 1)
              { task := r.task, spawns := h.spawns ++ r.spawns,
                placed := h.placed ++ r.placed, raised := r.raised }

/-- Oracle for one `close_limit` run: the depth quote (fetch assumed to
succeed; a failed fetch aborts the spawned coroutine with no task-state
effect), the two `now()` reads for the order params, the two placement
responses, and fallback oracles for early-expiry replays. -/
structure CloseLimitOracle where
  depth : PositionPrice
  t1 : Nat
  t2 : Nat
  buyResp : Except String String
  sellResp : Except String String
  fb1 : FallbackOracle
  fb2 : FallbackOracle
deriving DecidableEq, Repr, Inhabited

/-- `RushTask.close_limit` (lines 351–418).  Raises on its checked
invariants — nonzero outstanding orders, filled-order count ≠ 2, open-BUY
count ≠ 1, open-SELL count ≠ 1, matched-account count ≠ 1 for either leg —
before any placement; otherwise prices closing GTX orders off a fresh depth
quote, inverts each side, sizes each to its open leg's original quantity,
routes each to the account that opened that leg, and registers the results.
The passed `random()` argument of `account_order` is irrelevant here because
both params carry explicit quantities. -/
def close_limit (st : RushTaskState) (orc : CloseLimitOracle) : TStep :=
  if st.open_orders.length ≠ 0 then
    { task := st, spawns := [], placed := [],
      raised := some "close_limit: outstanding order count is not 0" }
  else if st.filled_orders.length ≠ 2 then
    { task := st, spawns := [], placed := [],
      raised := some "close_limit: filled order count is not 2" }
  else
    let open_buy_orders := st.filled_orders.filter
      (fun o => o.hold_type == OrderHoldType.opn && o.order_params.side == OrderSide.BUY)
    if open_buy_orders.length ≠ 1 then
      { task := st, spawns := [], placed := [],
        raised := some "close_limit: open BUY count is not 1" }
    else
      let open_buy_order := open_buy_orders.getD 0 default
      let open_sell_orders := st.filled_orders.filter
        (fun o => o.hold_type == OrderHoldType.opn && o.order_params.side == OrderSide.SELL)
      if open_sell_orders.length ≠ 1 then
        { task := st, spawns := [], placed := [],
          raised := some "close_limit: open SELL count is not 1" }
      else
        let open_sell_order := open_sell_orders.getD 0 default
        let close_buy_order_params : OrderParams :=
          { symbol := st.symbol, side := OrderSide.SELL, type := OrderType.LIMIT,
            timestamp := orc.t1, price := some orc.depth.ask_price,
            quantity := open_buy_order.order_params.quantity,
            timeInForce := some OrderTimeInForce.GTX }
        let close_sell_order_params : OrderParams :=
          { symbol := st.symbol, side := OrderSide.BUY, type := OrderType.LIMIT,
            timestamp := orc.t2, price := some orc.depth.bid_price,
            quantity := open_sell_order.order_params.quantity,
            timeInForce := some OrderTimeInForce.GTX }
        let close_buy_order_accounts := [st.first_account, st.second_account].filter
          (fun a => a.id == open_buy_order.account_id)
        if close_buy_order_accounts.length ≠ 1 then
          { task := st, spawns := [], placed := [],
            raised := some "close_limit: BUY-leg account count is not 1" }
        else
          let close_buy_order_account := close_buy_order_accounts.getD 0 default
          let close_sell_order_accounts := [st.first_account, st.second_account].filter
            (fun a => a.id == open_sell_order.account_id)
          if close_sell_order_accounts.length ≠ 1 then
            { task := st, spawns := [], placed := [],
              raised := some "close_limit: SELL-leg account count is not 1" }
          else
            let close_sell_order_account := close_sell_order_accounts.getD 0 default
            let buyResult := account_order close_buy_order_account close_buy_order_params
              OrderHoldType.cls orc.depth.timestamp 0 orc.buyResp
            let sellResult := account_order close_sell_order_account close_sell_order_params
              OrderHoldType.cls orc.depth.timestamp 0 orc.sellResp
            let st := change_stage st RushTaskStage.close_limit
            let r := register_orders st [buyResult, sellResult] [orc.fb1, orc.fb2]
            { task := r.task, spawns := r.spawns,
              placed := [buyResult, sellResult].filterMap Except.toOption ++ r.placed,
              raised := r.raised }

/-- Oracle for one `run` invocation: the random account pick, the depth
quote, the `now()` reads, the `random()` draws for the two notional
perturbations, the two placement responses, and fallback oracles for
early-expiry replays. -/
structure RunOracle where
  pick_first : Bool
  depth : PositionPrice
  t1 : Nat
  t2 : Nat
  rBuy : ℚ
  rSell : ℚ
  buyResp : Except String String
  sellResp : Except String String
  fb1 : FallbackOracle
  fb2 : FallbackOracle
deriving DecidableEq, Repr, Inhabited

/-- `RushTask.run` (lines 420–447): mark STARTED, price both legs off one
depth quote (BUY at the bid on the randomly picked account, SELL at the ask
on the other), place both as GTX limit orders with no explicit quantity, set
stage OPEN_LIMIT, then register the results, replaying buffered early
expiries. -/
def run_task (st : RushTaskState) (orc : RunOracle) : TStep :=
  let st := change_status st RushTaskStatus.STARTED
  let random_account := if orc.pick_first then st.first_account else st.second_account
  let another_account := if orc.pick_first then st.second_account else st.first_account
  let buy_order_params : OrderParams :=
    { symbol := st.symbol, side := OrderSide.BUY, type := OrderType.LIMIT,
      timestamp := orc.t1, price := some orc.depth.bid_price, quantity := none,
      timeInForce := some OrderTimeInForce.GTX }
  let sell_order_params : OrderParams :=
    { symbol := st.symbol, side := OrderSide.SELL, type := OrderType.LIMIT,
      timestamp := orc.t2, price := some orc.depth.ask_price, quantity := none,
      timeInForce := some OrderTimeInForce.GTX }
  let buyResult := account_order random_account buy_order_params OrderHoldType.opn
    orc.depth.timestamp orc.rBuy orc.buyResp
  let sellResult := account_order another_account sell_order_params OrderHoldType.opn
    orc.depth.timestamp orc.rSell orc.sellResp
  let st := change_stage st RushTaskStage.open_limit
  let r := register_orders st [buyResult, sellResult] [orc.fb1, orc.fb2]
  { task := r.task, spawns := r.spawns,
    placed := [buyResult, sellResult].filterMap Except.toOption ++ r.placed,
    raised := r.raised }

/-! ## Claim C4: quantity rounding -/

/-- Helper: Python `round` to an integer lands within half a unit. -/
theorem roundHalfEven_abs_le (q : ℚ) : |(roundHalfEven q : ℚ) - q| ≤ 1 / 2 := by
  have h0 : (0:ℚ) ≤ q - ⌊q⌋ := sub_nonneg.mpr (Int.floor_le q)
  have h1 : q - ⌊q⌋ < 1 := by
    have := Int.lt_floor_add_one q
    linarith
  unfold roundHalfEven
  split_ifs with hlt hgt heven
  · rw [abs_sub_comm, abs_of_nonneg h0]
    linarith
  · have hcast : ((⌊q⌋ + 1 : ℤ) : ℚ) - q = 1 - (q - ⌊q⌋) := by push_cast; ring
    rw [hcast, abs_of_nonneg (by linarith)]
    linarith
  · rw [abs_sub_comm, abs_of_nonneg h0]
    linarith
  · have hcast : ((⌊q⌋ + 1 : ℤ) : ℚ) - q = 1 - (q - ⌊q⌋) := by push_cast; ring
    rw [hcast, abs_of_nonneg (by linarith)]
    linarith

/-- Account used by the C4 counterexample: target notional 100 USDT, 1 %
deviation, trading BTCUSDT whose quantity step is "0.001". -/
def c4_account : AccountCfg :=
  { id := "A1", depth_position := 5, target_amount := 100, amount_deviation := 1/100,
    hold_time := 300, hold_time_deviation := 1/100, symbols := [("BTCUSDT", "0.001")] }

/-- Order intent of the C4 counterexample: a GTX limit BUY at price 62500
with the quantity omitted. -/
def c4_params : OrderParams :=
  { symbol := "BTCUSDT", side := OrderSide.BUY, type := OrderType.LIMIT, timestamp := 0,
    price := some 62500, quantity := none, timeInForce := some OrderTimeInForce.GTX }

/-- C4, counterexample.  With target notional 100, a deviation draw of 0.5
(zero perturbation), price 62500 and step size "0.001", the notional over the
price is 0.0016 and the largest multiple of the step not exceeding it is
0.001 — but `order` submits quantity 0.002: the code rounds to the nearest
step decimal, not down, so the claim is false at this input. -/
theorem c4_counterexample :
    (account_order c4_account c4_params OrderHoldType.opn 0 (1/2)
        (Except.ok "77")).map (fun o => o.order_params.quantity) =
      Except.ok (some (1/500)) ∧
    derive_quantity 100 (1/100) (1/2) 62500 "0.001" = Except.ok (1/500) ∧
    specFloorToStep (100/62500) (decToRat "0.001") = 1/1000 ∧
    ((1:ℚ)/500) ≠ 1/1000 := by
  refine ⟨?_, ?_, ?_, by norm_num⟩
  · simp +decide [account_order, c4_account, c4_params, place_order, derive_quantity,
      format_to_stepsize, stepDecimalPlaces, decToRat, splitChar, rstripChar, natOfDigits]
    norm_num [roundHalfEven, Except.map]
  · simp +decide [derive_quantity, format_to_stepsize, stepDecimalPlaces, decToRat,
      splitChar, rstripChar, natOfDigits]
    norm_num [roundHalfEven]
  · simp +decide [specFloorToStep, decToRat, splitChar, natOfDigits]
    norm_num

/-- C4, amended.  When the quantity is derived at placement time it equals
the (deviation-perturbed) target notional divided by the price rounded half
to even at the decimal precision implied by the step-size string — an
integer multiple of `10^(-dp)` within half of `10^(-dp)` of the exact
quotient — rather than rounded down to the step. -/
theorem c4_quantity_rounded_to_nearest (target dev r price : ℚ) (step : String) (q : ℚ)
    (h : derive_quantity target dev r price step = Except.ok q) :
    (∃ n : ℤ, q = (n : ℚ) / 10 ^ stepDecimalPlaces step) ∧
    |q - (target + target * dev * (r * 2 - 1)) / price| ≤
      1 / (2 * 10 ^ stepDecimalPlaces step) := by
  simp only [derive_quantity] at h
  split_ifs at h
  set x := (target + target * dev * (r * 2 - 1)) / price with hx
  have hq : q = format_to_stepsize x step := by
    simpa [hx] using h.symm
  subst hq
  simp only [format_to_stepsize]
  set dp := stepDecimalPlaces step with hdp
  refine ⟨⟨roundHalfEven (x * 10 ^ dp), rfl⟩, ?_⟩
  have hb := roundHalfEven_abs_le (x * 10 ^ dp)
  have hpow : (0:ℚ) < 10 ^ dp := by positivity
  have hrw : (roundHalfEven (x * 10 ^ dp) : ℚ) / 10 ^ dp - x =
      ((roundHalfEven (x * 10 ^ dp) : ℚ) - x * 10 ^ dp) / 10 ^ dp := by
    field_simp
    ring
  rw [hrw, abs_div, abs_of_pos hpow, div_le_iff₀ hpow]
  calc |(roundHalfEven (x * 10 ^ dp) : ℚ) - x * 10 ^ dp| ≤ 1 / 2 := hb
    _ = 1 / (2 * 10 ^ dp) * 10 ^ dp := by field_simp

/-- C4, witness: the amended theorem applied at the counterexample input. -/
theorem c4_witness :
    (∃ n : ℤ, (1/500 : ℚ) = (n : ℚ) / 10 ^ stepDecimalPlaces "0.001") ∧
    |(1/500 : ℚ) - (100 + 100 * (1/100) * ((1/2) * 2 - 1)) / 62500| ≤
      1 / (2 * 10 ^ stepDecimalPlaces "0.001") :=
  c4_quantity_rounded_to_nearest 100 (1/100) (1/2) 62500 "0.001" (1/500)
    (by
      simp +decide [derive_quantity, format_to_stepsize, stepDecimalPlaces, decToRat,
        splitChar, rstripChar, natOfDigits]
      norm_num [roundHalfEven])

/-! ## Shared concrete fixtures and helper lemmas for the task claims -/

/-- A FILLED stream event for order id `oid`, as `simulate_callback` and the
exchange stream deliver it. -/
def mkFilledMsg (oid : String) : EventMsg :=
  { o := some { execStatus := some "FILLED", orderId := some oid } }

/-- An EXPIRED stream event for order id `oid` (a GTX order the venue
refused to post passively). -/
def mkExpiredMsg (oid : String) : EventMsg :=
  { o := some { execStatus := some "EXPIRED", orderId := some oid } }

/-- First fixture account. -/
def acctA : AccountCfg :=
  { id := "A1", depth_position := 5, target_amount := 100, amount_deviation := 1/100,
    hold_time := 300, hold_time_deviation := 1/100, symbols := [("BTCUSDT", "0.001")] }

/-- Second fixture account. -/
def acctB : AccountCfg :=
  { id := "B1", depth_position := 5, target_amount := 100, amount_deviation := 1/100,
    hold_time := 300, hold_time_deviation := 1/100, symbols := [("BTCUSDT", "0.001")] }

/-- Fixture GTX limit order params on BTCUSDT. -/
def sample_params (side : OrderSide) : OrderParams :=
  { symbol := "BTCUSDT", side := side, type := OrderType.LIMIT, timestamp := 0,
    price := some 100, quantity := some 1, timeInForce := some OrderTimeInForce.GTX }

/-- Fixture placed order with a given id, account and purpose. -/
def sample_order (oid aid : String) (side : OrderSide) (hold : OrderHoldType) : Order :=
  { price_time := 0, hold_type := hold, order_params := sample_params side,
    order_result_orderId := oid, account_id := aid }

/-- Helper: `order_update_callback` ignores a FILLED event whose order id is
not among the outstanding orders (`RushTask.order_update_callback` lines
206–210). -/
theorem order_update_callback_unknown_filled (st : RushTaskState) (oid : String)
    (h : st.open_orders.lookup oid = none) :
    order_update_callback st (mkFilledMsg oid) = (st, []) := by
  simp [order_update_callback, mkFilledMsg, pyStr, h]

/-- Helper: popping the single binding of a key empties the dict. -/
theorem dictPop_single (k : String) {α : Type} (v : α) : dictPop k [(k, v)] = [] := by
  simp [dictPop, List.eraseP]

/-- Helper: popping a freshly inserted key restores the dict when the key was
absent. -/
theorem dictPop_dictInsert_fresh (k : String) {α : Type} (v : α) (l : List (String × α))
    (h : k ∉ l.map Prod.fst) : dictPop k (dictInsert k v l) = l := by
  induction l with
  | nil => simp [dictInsert, dictPop, List.eraseP]
  | cons p rest ih =>
      have hne : p.1 ≠ k := by
        intro hk
        exact h (by simp [hk])
      have hrest : k ∉ rest.map Prod.fst := by
        intro hk
        exact h (by simp [hk])
      have h1 : dictInsert k v (p :: rest) = p :: dictInsert k v rest := by
        obtain ⟨k', v'⟩ := p
        simp only [dictInsert]
        rw [if_neg (by simpa using hne)]
      rw [h1]
      have h2 : dictPop k (p :: dictInsert k v rest) = p :: dictPop k (dictInsert k v rest) := by
        simp [dictPop, List.eraseP_cons, hne]
      rw [h2, ih hrest]

/-- Helper: lookup misses every absent key. -/
theorem lookup_eq_none_of_not_mem_keys {α : Type} (k : String) (l : List (String × α))
    (h : k ∉ l.map Prod.fst) : l.lookup k = none := by
  induction l with
  | nil => rfl
  | cons p rest ih =>
      have hne : k ≠ p.1 := by
        intro hk
        exact h (by simp [hk])
      have hrest : k ∉ rest.map Prod.fst := by
        intro hk
        exact h (by simp [hk])
      have hb : (k == p.1) = false := beq_eq_false_iff_ne.mpr hne
      simp [List.lookup, hb, ih hrest]

/-! ## Claim C9: duplicate FILLED idempotence -/

/-- C9.  For a task in which order id `oid` has already been moved from the
outstanding map to the filled list, delivering a FILLED event for `oid`
again returns the state unchanged and spawns no phase-advance coroutine. -/
theorem c9_duplicate_filled_ignored (st : RushTaskState) (oid : String)
    (_hfilled : oid ∈ st.filled_orders.map (fun o => o.order_result_orderId))
    (hmoved : st.open_orders.lookup oid = none) :
    order_update_callback st (mkFilledMsg oid) = (st, []) :=
  order_update_callback_unknown_filled st oid hmoved

/-- Task state for the C9 witness: order "1" filled and no longer
outstanding. -/
def c9_state : RushTaskState :=
  { id := "T9", status := RushTaskStatus.STARTED, stage := RushTaskStage.open_market,
    symbol := "BTCUSDT", first_account := acctA, second_account := acctB,
    filled_orders := [FilledOrder.from_order (sample_order "1" "A1" OrderSide.BUY
      OrderHoldType.opn) (some (FilledPayload.ws (mkFilledMsg "1")))],
    open_orders := [("2", sample_order "2" "B1" OrderSide.SELL OrderHoldType.opn)],
    cancel_orders := [], logs := [], expired_order_id_map := [] }

/-- C9, witness: the theorem applied to the concrete state `c9_state`. -/
theorem c9_witness :
    "1" ∈ c9_state.filled_orders.map (fun o => o.order_result_orderId) ∧
    c9_state.open_orders.lookup "1" = none ∧
    order_update_callback c9_state (mkFilledMsg "1") = (c9_state, []) :=
  ⟨by simp [c9_state, FilledOrder.from_order, sample_order],
   by simp [c9_state, sample_order, List.lookup],
   c9_duplicate_filled_ignored c9_state "1"
     (by simp [c9_state, FilledOrder.from_order, sample_order])
     (by simp [c9_state, sample_order, List.lookup])⟩

/-! ## Projection lemmas for the stage/status setters -/

/-- `change_stage` touches only `stage`. -/
@[simp] theorem change_stage_filled (st : RushTaskState) (s : RushTaskStage) :
    (change_stage st s).filled_orders = st.filled_orders := by
  unfold change_stage; split <;> rfl

/-- `change_stage` touches only `stage`. -/
@[simp] theorem change_stage_open (st : RushTaskState) (s : RushTaskStage) :
    (change_stage st s).open_orders = st.open_orders := by
  unfold change_stage; split <;> rfl

/-- `change_stage` touches only `stage`. -/
@[simp] theorem change_stage_cancel (st : RushTaskState) (s : RushTaskStage) :
    (change_stage st s).cancel_orders = st.cancel_orders := by
  unfold change_stage; split <;> rfl

/-- `change_stage` touches only `stage`. -/
@[simp] theorem change_stage_status (st : RushTaskState) (s : RushTaskStage) :
    (change_stage st s).status = st.status := by
  unfold change_stage; split <;> rfl

/-- `change_stage` touches only `stage`. -/
@[simp] theorem change_stage_expired (st : RushTaskState) (s : RushTaskStage) :
    (change_stage st s).expired_order_id_map = st.expired_order_id_map := by
  unfold change_stage; split <;> rfl

/-- `change_stage` touches only `stage`. -/
@[simp] theorem change_stage_logs (st : RushTaskState) (s : RushTaskStage) :
    (change_stage st s).logs = st.logs := by
  unfold change_stage; split <;> rfl

/-- Setting a stage always lands on that stage (either it was already set or
it is overwritten). -/
@[simp] theorem change_stage_stage (st : RushTaskState) (s : RushTaskStage) :
    (change_stage st s).stage = s := by
  unfold change_stage; split <;> simp_all

/-- `change_status` touches only `status` and `logs`. -/
@[simp] theorem change_status_stage (st : RushTaskState) (s : RushTaskStatus) :
    (change_status st s).stage = st.stage := by
  unfold change_status; split <;> rfl

/-- `change_status` touches only `status` and `logs`. -/
@[simp] theorem change_status_open (st : RushTaskState) (s : RushTaskStatus) :
    (change_status st s).open_orders = st.open_orders := by
  unfold change_status; split <;> rfl

/-- `change_status` touches only `status` and `logs`. -/
@[simp] theorem change_status_filled (st : RushTaskState) (s : RushTaskStatus) :
    (change_status st s).filled_orders = st.filled_orders := by
  unfold change_status; split <;> rfl

/-- `change_status` touches only `status` and `logs`. -/
@[simp] theorem change_status_cancel (st : RushTaskState) (s : RushTaskStatus) :
    (change_status st s).cancel_orders = st.cancel_orders := by
  unfold change_status; split <;> rfl

/-- `change_status` touches only `status` and `logs`. -/
@[simp] theorem change_status_expired (st : RushTaskState) (s : RushTaskStatus) :
    (change_status st s).expired_order_id_map = st.expired_order_id_map := by
  unfold change_status; split <;> rfl

/-- Setting a status always lands on that status. -/
@[simp] theorem change_status_status (st : RushTaskState) (s : RushTaskStatus) :
    (change_status st s).status = s := by
  unfold change_status; split <;> simp_all

/-- Helper: shape of the order a successful `account_order` call returns. -/
theorem account_order_ok (account : AccountCfg) (params : OrderParams)
    (hold : OrderHoldType) (pt : Nat) (r : ℚ) (resp : Except String String) (o : Order)
    (h : account_order account params hold pt r resp = Except.ok o) :
    o.hold_type = hold ∧ o.account_id = account.id ∧
    o.order_params.type = params.type ∧ o.order_params.side = params.side ∧
    o.order_params.symbol = params.symbol ∧
    o.order_params.timeInForce = params.timeInForce ∧
    o.order_params.timestamp = params.timestamp ∧
    o.price_time = pt ∧ resp = Except.ok o.order_result_orderId := by
  unfold account_order at h
  rcases hq : params.quantity with _ | q <;> simp only [hq] at h
  · rcases hp : params.price with _ | price <;> simp only [hp] at h
    · simp at h
    · rcases hs : account.symbols.lookup params.symbol with _ | step <;> simp only [hs] at h
      · simp at h
      · rcases hd : derive_quantity account.target_amount account.amount_deviation r price
            step with e | dq <;> simp only [hd] at h
        · simp at h
        · unfold place_order at h
          rcases hr : resp with e | oid <;> simp only [hr] at h
          · simp at h
          · simp at h
            subst h
            simp
  · unfold place_order at h
    rcases hr : resp with e | oid <;> simp only [hr] at h
    · simp at h
    · simp at h
      subst h
      simp

/-- Remaining-leg branch of `open_market` (lines 259–279): unless it raises,
it cancels the head outstanding order, re-submits it as a market order on
the same account, and appends the fill with no confirmation payload. -/
theorem open_market_nonempty_shape (st : RushTaskState) (orc : MarketOracle)
    (oid : String) (O : Order) (rest : List (String × Order))
    (hopen : st.open_orders = (oid, O) :: rest) :
    (open_market st orc).raised.isSome ∨
    ∃ cp mo,
      orc.cancelResp = Except.ok cp ∧
      account_order
        (([st.first_account, st.second_account].filter
          (fun a => a.id == O.account_id)).getD 0 st.first_account)
        { (CanceledOrder.from_order O cp).order_params with type := OrderType.MARKET, timeInForce := none, timestamp := orc.t1, price := none }
        OrderHoldType.opn orc.t2 orc.r orc.orderResp = Except.ok mo ∧
      open_market st orc =
        { task :=
            { (change_stage { st with open_orders := dictPop oid st.open_orders, cancel_orders := st.cancel_orders ++ [CanceledOrder.from_order O cp] } RushTaskStage.open_market) with
                filled_orders := st.filled_orders ++ [FilledOrder.from_order mo none] },
          spawns := [Spawn.holdTask], placed := [mo], raised := none } := by
  simp only [open_market, hopen]
  split
  · simp
  · split
    · simp
    next cp heqc =>
      split
      · simp
      next mo heqo =>
        right
        refine ⟨cp, mo, heqc, ?_, ?_⟩
        · exact heqo
        · simp [hopen]

/-! ## Shape lemmas for the task coroutines -/

/-- Simultaneous-fill branch of `open_market` (lines 247–257): with no
outstanding orders the task advances to HOLD exactly when it is not already
there. -/
theorem open_market_empty (st : RushTaskState) (orc : MarketOracle)
    (hopen : st.open_orders = []) :
    open_market st orc =
      if st.stage ≠ RushTaskStage.hold then
        { task := change_stage st RushTaskStage.hold, spawns := [Spawn.holdTask],
          placed := [], raised := none }
      else { task := st, spawns := [], placed := [], raised := none } := by
  simp only [open_market, hopen]

/-- Simultaneous-fill branch of `close_market` (lines 292–302). -/
theorem close_market_empty (st : RushTaskState) (orc : MarketOracle)
    (hopen : st.open_orders = []) :
    close_market st orc =
      if st.stage ≠ RushTaskStage.completed then
        { task := finish_task (change_stage st RushTaskStage.completed), spawns := [],
          placed := [], raised := none }
      else { task := st, spawns := [], placed := [], raised := none } := by
  simp only [close_market, hopen]

/-- Remaining-leg branch of `close_market` (lines 304–324): unless it
raises, it cancels the head outstanding order, re-submits it as a market
order, appends the fill with no confirmation payload and finishes. -/
theorem close_market_nonempty_shape (st : RushTaskState) (orc : MarketOracle)
    (oid : String) (O : Order) (rest : List (String × Order))
    (hopen : st.open_orders = (oid, O) :: rest) :
    (close_market st orc).raised.isSome ∨
    ∃ cp mo,
      orc.cancelResp = Except.ok cp ∧
      account_order
        (([st.first_account, st.second_account].filter
          (fun a => a.id == O.account_id)).getD 0 st.first_account)
        { (CanceledOrder.from_order O cp).order_params with type := OrderType.MARKET, timeInForce := none, timestamp := orc.t1, price := none }
        OrderHoldType.cls orc.t2 orc.r orc.orderResp = Except.ok mo ∧
      close_market st orc =
        { task := finish_task
            { (change_stage { st with open_orders := dictPop oid st.open_orders, cancel_orders := st.cancel_orders ++ [CanceledOrder.from_order O cp] } RushTaskStage.close_market) with
                filled_orders := st.filled_orders ++ [FilledOrder.from_order mo none] },
          spawns := [], placed := [mo], raised := none } := by
  simp only [close_market, hopen]
  split
  · simp
  · split
    · simp
    next cp heqc =>
      split
      · simp
      next mo heqo =>
        right
        refine ⟨cp, mo, heqc, ?_, ?_⟩
        · exact heqo
        · simp [hopen]

/-- Early branch of `handle_failed_limit_order` (lines 162–165): an expiry
for an unregistered order id is parked in the early-expiry buffer. -/
theorem handle_failed_parked (st : RushTaskState) (order_id : String) (message : EventMsg)
    (orc : FallbackOracle) (h : st.open_orders.lookup order_id = none) :
    handle_failed_limit_order st order_id message orc =
      { task := { st with expired_order_id_map := dictInsert order_id message st.expired_order_id_map },
        spawns := [], placed := [], raised := none } := by
  simp only [handle_failed_limit_order, h]

/-- Main branch of `handle_failed_limit_order` (lines 166–183): for a
registered order id, unless the market re-submission raises, the order moves
to the canceled list, exactly one market order is placed on the same
account, registered, and immediately fed through `limit_order_on_filled`. -/
theorem handle_failed_registered_shape (st : RushTaskState) (order_id : String)
    (message : EventMsg) (orc : FallbackOracle) (O : Order)
    (h : st.open_orders.lookup order_id = some O) :
    (handle_failed_limit_order st order_id message orc).raised.isSome ∨
    ∃ mo,
      account_order
        (if O.account_id = st.first_account.id then st.first_account else st.second_account)
        { O.order_params with type := OrderType.MARKET, timeInForce := none, timestamp := orc.tNow, price := none }
        O.hold_type O.price_time orc.r orc.resp = Except.ok mo ∧
      handle_failed_limit_order st order_id message orc =
        { task := (limit_order_on_filled
            { st with cancel_orders := st.cancel_orders ++ [CanceledOrder.from_order O (CancelPayload.fromEvent message)],
                      open_orders := dictInsert mo.order_result_orderId mo (dictPop order_id st.open_orders) }
            mo (FilledPayload.fallback message)).1,
          spawns := (limit_order_on_filled
            { st with cancel_orders := st.cancel_orders ++ [CanceledOrder.from_order O (CancelPayload.fromEvent message)],
                      open_orders := dictInsert mo.order_result_orderId mo (dictPop order_id st.open_orders) }
            mo (FilledPayload.fallback message)).2,
          placed := [mo], raised := none } := by
  simp only [handle_failed_limit_order, h]
  split
  · simp
  next mo heqo =>
    right
    refine ⟨mo, ?_, ?_⟩
    · exact heqo
    · simp

/-! ## Claim C10: market orders are recorded as filled immediately -/

/-- C10, amended.  Every market order a task places is appended to
`filled_orders` as soon as the placement call returns, is never registered
as outstanding afterwards, and a later FILLED event for its id is ignored.
The cancel-remaining-leg paths of `open_market`/`close_market` record it
with `filled_result = none`; the maker-to-taker fallback path of
`handle_failed_limit_order` records it with the synthetic fallback payload
wrapping the expiry message, not `none`. -/
theorem c10_market_fill_recording :
    (∀ (st : RushTaskState) (orc : MarketOracle) (oid : String) (O : Order),
      st.open_orders = [(oid, O)] →
      (open_market st orc).raised = none →
      ∃ mo, (open_market st orc).placed = [mo] ∧
        mo.order_params.type = OrderType.MARKET ∧
        (open_market st orc).task.filled_orders =
          st.filled_orders ++ [FilledOrder.from_order mo none] ∧
        (FilledOrder.from_order mo none).filled_result = none ∧
        (open_market st orc).task.open_orders = [] ∧
        order_update_callback (open_market st orc).task (mkFilledMsg mo.order_result_orderId) =
          ((open_market st orc).task, [])) ∧
    (∀ (st : RushTaskState) (orc : MarketOracle) (oid : String) (O : Order),
      st.open_orders = [(oid, O)] →
      (close_market st orc).raised = none →
      ∃ mo, (close_market st orc).placed = [mo] ∧
        mo.order_params.type = OrderType.MARKET ∧
        (close_market st orc).task.filled_orders =
          st.filled_orders ++ [FilledOrder.from_order mo none] ∧
        (close_market st orc).task.open_orders = [] ∧
        order_update_callback (close_market st orc).task (mkFilledMsg mo.order_result_orderId) =
          ((close_market st orc).task, [])) ∧
    (∀ (st : RushTaskState) (order_id nid : String) (message : EventMsg)
        (orc : FallbackOracle) (O : Order),
      st.open_orders.lookup order_id = some O →
      orc.resp = Except.ok nid →
      nid ∉ (dictPop order_id st.open_orders).map Prod.fst →
      (handle_failed_limit_order st order_id message orc).raised = none →
      ∃ mo, (handle_failed_limit_order st order_id message orc).placed = [mo] ∧
        mo.order_params.type = OrderType.MARKET ∧
        (handle_failed_limit_order st order_id message orc).task.filled_orders =
          st.filled_orders ++ [FilledOrder.from_order mo (some (FilledPayload.fallback message))] ∧
        (FilledOrder.from_order mo (some (FilledPayload.fallback message))).filled_result ≠ none ∧
        (handle_failed_limit_order st order_id message orc).task.open_orders =
          dictPop order_id st.open_orders ∧
        order_update_callback (handle_failed_limit_order st order_id message orc).task
          (mkFilledMsg mo.order_result_orderId) =
          ((handle_failed_limit_order st order_id message orc).task, [])) := by
  refine ⟨?_, ?_, ?_⟩
  · intro st orc oid O hopen hraised
    rcases open_market_nonempty_shape st orc oid O [] hopen with h | ⟨cp, mo, heqc, heqo, heq⟩
    · rw [hraised] at h
      simp at h
    · obtain ⟨-, -, hty, -, -, -, -, -, -⟩ := account_order_ok _ _ _ _ _ _ _ heqo
      refine ⟨mo, ?_, ?_, ?_, rfl, ?_, ?_⟩
      · simp [heq]
      · simpa [CanceledOrder.from_order] using hty
      · simp [heq]
      · simp [heq, hopen, dictPop_single]
      · apply order_update_callback_unknown_filled
        simp [heq, hopen, dictPop_single]
  · intro st orc oid O hopen hraised
    rcases close_market_nonempty_shape st orc oid O [] hopen with h | ⟨cp, mo, heqc, heqo, heq⟩
    · rw [hraised] at h
      simp at h
    · obtain ⟨-, -, hty, -, -, -, -, -, -⟩ := account_order_ok _ _ _ _ _ _ _ heqo
      refine ⟨mo, ?_, ?_, ?_, ?_, ?_⟩
      · simp [heq]
      · simpa [CanceledOrder.from_order] using hty
      · simp [heq, finish_task]
      · simp [heq, finish_task, hopen, dictPop_single]
      · apply order_update_callback_unknown_filled
        simp [heq, finish_task, hopen, dictPop_single]
  · intro st order_id nid message orc O hlook hresp hfresh hraised
    rcases handle_failed_registered_shape st order_id message orc O hlook with h | ⟨mo, heqo, heq⟩
    · rw [hraised] at h
      simp at h
    · obtain ⟨-, -, hty, -, -, -, -, -, hr⟩ := account_order_ok _ _ _ _ _ _ _ heqo
      have hnid : mo.order_result_orderId = nid := by
        rw [hresp] at hr
        exact (Except.ok.injEq _ _).mp hr.symm
      have hopen2 : (handle_failed_limit_order st order_id message orc).task.open_orders =
          dictPop order_id st.open_orders := by
        rw [heq]
        simp only [limit_order_on_filled]
        split <;>
          simp [hnid, dictPop_dictInsert_fresh nid mo (dictPop order_id st.open_orders) hfresh]
      refine ⟨mo, ?_, ?_, ?_, by simp [FilledOrder.from_order], hopen2, ?_⟩
      · simp [heq]
      · simpa using hty
      · rw [heq]
        simp only [limit_order_on_filled]
        split <;> simp
      · apply order_update_callback_unknown_filled
        rw [hopen2, hnid]
        exact lookup_eq_none_of_not_mem_keys nid _ hfresh

/-- Task state for the C10 counterexample/witness runs: one outstanding GTX
open order (id "9") on account A1. -/
def c10_state : RushTaskState :=
  { id := "T10", status := RushTaskStatus.STARTED, stage := RushTaskStage.open_limit,
    symbol := "BTCUSDT", first_account := acctA, second_account := acctB,
    filled_orders := [], open_orders := [("9", sample_order "9" "A1" OrderSide.BUY OrderHoldType.opn)],
    cancel_orders := [], logs := [], expired_order_id_map := [] }

/-- C10, counterexample.  Replaying the expiry of order "9" places the
fallback market order and appends it to `filled_orders` with the synthetic
fallback payload — not with `filled_result = None` as the claim states. -/
theorem c10_counterexample :
    (handle_failed_limit_order c10_state "9" (mkExpiredMsg "9")
        { tNow := 0, r := 0, resp := Except.ok "10" }).task.filled_orders.map
        (fun o => o.filled_result) =
      [some (FilledPayload.fallback (mkExpiredMsg "9"))] ∧
    some (FilledPayload.fallback (mkExpiredMsg "9")) ≠ (none : Option FilledPayload) := by
  constructor
  · rfl
  · simp

/-- Oracle for the C10 witness. -/
def c10_orc : MarketOracle :=
  { cancelResp := Except.ok (CancelPayload.exchange "canceled"), t1 := 0, t2 := 0, r := 0,
    orderResp := Except.ok "11" }

/-- C10, witness: the open-market clause of the amended theorem applied to
the concrete state `c10_state`. -/
theorem c10_witness :
    ∃ mo, (open_market c10_state c10_orc).placed = [mo] ∧
      mo.order_params.type = OrderType.MARKET ∧
      (open_market c10_state c10_orc).task.filled_orders =
        c10_state.filled_orders ++ [FilledOrder.from_order mo none] ∧
      (FilledOrder.from_order mo none).filled_result = none ∧
      (open_market c10_state c10_orc).task.open_orders = [] ∧
      order_update_callback (open_market c10_state c10_orc).task
        (mkFilledMsg mo.order_result_orderId) =
        ((open_market c10_state c10_orc).task, []) :=
  c10_market_fill_recording.1 c10_state c10_orc "9"
    (sample_order "9" "A1" OrderSide.BUY OrderHoldType.opn) rfl (by rfl)

/-! ## Claim C7: close_limit contract -/

/-- The invariant checks `close_limit` actually performs before placing any
order (lines 357–370 and 396–404): zero outstanding orders, exactly two
filled orders, exactly one open BUY, exactly one open SELL, and each leg's
account id matching exactly one of the two bound accounts.  It does not
check that the two legs sit on distinct accounts. -/
def close_limit_checks (st : RushTaskState) : Bool :=
  st.open_orders.length == 0 &&
  st.filled_orders.length == 2 &&
  (st.filled_orders.filter (fun o => o.hold_type == OrderHoldType.opn && o.order_params.side == OrderSide.BUY)).length == 1 &&
  (st.filled_orders.filter (fun o => o.hold_type == OrderHoldType.opn && o.order_params.side == OrderSide.SELL)).length == 1 &&
  ([st.first_account, st.second_account].filter (fun a => a.id == ((st.filled_orders.filter (fun o => o.hold_type == OrderHoldType.opn && o.order_params.side == OrderSide.BUY)).getD 0 default).account_id)).length == 1 &&
  ([st.first_account, st.second_account].filter (fun a => a.id == ((st.filled_orders.filter (fun o => o.hold_type == OrderHoldType.opn && o.order_params.side == OrderSide.SELL)).getD 0 default).account_id)).length == 1

/-- C7, amended.  With 0 outstanding orders and exactly 2 filled open orders
— exactly one BUY and one SELL, each matching exactly one bound account,
with no requirement that the two legs sit on distinct accounts —
`close_limit` raises nothing and submits exactly two GTX limit closing
orders, each with inverted side, the open leg's original quantity, and
routed to the account that opened that leg; when any of the checks it
actually performs fails, it raises before placing any order. -/
theorem c7_close_limit_contract :
    (∀ (st : RushTaskState) (orc : CloseLimitOracle) (ob os : FilledOrder)
      (ab asell : AccountCfg) (qb qs : ℚ) (bid1 bid2 : String),
      st.open_orders = [] →
      st.filled_orders.length = 2 →
      st.filled_orders.filter (fun o => o.hold_type == OrderHoldType.opn && o.order_params.side == OrderSide.BUY) = [ob] →
      st.filled_orders.filter (fun o => o.hold_type == OrderHoldType.opn && o.order_params.side == OrderSide.SELL) = [os] →
      [st.first_account, st.second_account].filter (fun a => a.id == ob.account_id) = [ab] →
      [st.first_account, st.second_account].filter (fun a => a.id == os.account_id) = [asell] →
      ob.order_params.quantity = some qb →
      os.order_params.quantity = some qs →
      orc.buyResp = Except.ok bid1 →
      orc.sellResp = Except.ok bid2 →
      bid1 ≠ bid2 →
      st.expired_order_id_map = [] →
      (close_limit st orc).raised = none ∧
      (close_limit st orc).placed =
        [{ price_time := orc.depth.timestamp, hold_type := OrderHoldType.cls,
           order_params := { symbol := st.symbol, side := OrderSide.SELL, type := OrderType.LIMIT, timestamp := orc.t1, price := some orc.depth.ask_price, quantity := some qb, timeInForce := some OrderTimeInForce.GTX },
           order_result_orderId := bid1, account_id := ab.id },
         { price_time := orc.depth.timestamp, hold_type := OrderHoldType.cls,
           order_params := { symbol := st.symbol, side := OrderSide.BUY, type := OrderType.LIMIT, timestamp := orc.t2, price := some orc.depth.bid_price, quantity := some qs, timeInForce := some OrderTimeInForce.GTX },
           order_result_orderId := bid2, account_id := asell.id }] ∧
      (close_limit st orc).task.open_orders.length = 2 ∧
      (close_limit st orc).task.stage = RushTaskStage.close_limit ∧
      (close_limit st orc).task.status = st.status) ∧
    (∀ (st : RushTaskState) (orc : CloseLimitOracle),
      close_limit_checks st = false →
      (close_limit st orc).raised.isSome ∧ (close_limit st orc).placed = []) := by
  constructor
  · intro st orc ob os ab asell qb qs bid1 bid2 hopen hlen hbuy hsell hab hasell hqb hqs
      hbuyresp hsellresp hneq hmap
    have hb12 : (bid1 == bid2) = false := beq_eq_false_iff_ne.mpr hneq
    refine ⟨?_, ?_, ?_, ?_, ?_⟩ <;>
      simp [close_limit, hopen, hlen, hbuy, hsell, hab, hasell, hqb, hqs, hbuyresp,
        hsellresp, hmap, hb12, account_order, place_order, register_orders, dictInsert,
        Except.toOption]
  · intro st orc h
    by_cases h1 : st.open_orders.length = 0
    case neg => exact ⟨by simp [close_limit, h1], by simp [close_limit, h1]⟩
    by_cases h2 : st.filled_orders.length = 2
    case neg => exact ⟨by simp [close_limit, h1, h2], by simp [close_limit, h1, h2]⟩
    by_cases h3 : (st.filled_orders.filter (fun o => o.hold_type == OrderHoldType.opn && o.order_params.side == OrderSide.BUY)).length = 1
    case neg => exact ⟨by simp [close_limit, h1, h2, h3], by simp [close_limit, h1, h2, h3]⟩
    by_cases h4 : (st.filled_orders.filter (fun o => o.hold_type == OrderHoldType.opn && o.order_params.side == OrderSide.SELL)).length = 1
    case neg =>
      exact ⟨by simp [close_limit, h1, h2, h3, h4], by simp [close_limit, h1, h2, h3, h4]⟩
    obtain ⟨ob, hob⟩ := List.length_eq_one.mp h3
    obtain ⟨os, hos⟩ := List.length_eq_one.mp h4
    by_cases h5 : ([st.first_account, st.second_account].filter (fun a => a.id == ob.account_id)).length = 1
    case neg =>
      exact ⟨by simp [close_limit, h1, h2, hob, hos, h5],
        by simp [close_limit, h1, h2, hob, hos, h5]⟩
    by_cases h6 : ([st.first_account, st.second_account].filter (fun a => a.id == os.account_id)).length = 1
    case neg =>
      exact ⟨by simp [close_limit, h1, h2, hob, hos, h5, h6],
        by simp [close_limit, h1, h2, hob, hos, h5, h6]⟩
    exact absurd h (by simp [close_limit_checks, h1, h2, h3, h4, hob, hos, h5, h6])

/-- State for the C7 counterexample: both filled open legs (BUY "1" and
SELL "2") sit on the same account A1, violating the claim's distinct-account
precondition. -/
def c7_state : RushTaskState :=
  { id := "T7", status := RushTaskStatus.STARTED, stage := RushTaskStage.hold,
    symbol := "BTCUSDT", first_account := acctA, second_account := acctB,
    filled_orders :=
      [FilledOrder.from_order (sample_order "1" "A1" OrderSide.BUY OrderHoldType.opn)
         (some (FilledPayload.ws (mkFilledMsg "1"))),
       FilledOrder.from_order (sample_order "2" "A1" OrderSide.SELL OrderHoldType.opn)
         (some (FilledPayload.ws (mkFilledMsg "2")))],
    open_orders := [], cancel_orders := [], logs := [], expired_order_id_map := [] }

/-- Oracle for the C7 counterexample and witness. -/
def c7_orc : CloseLimitOracle :=
  { depth := { ask_price := 101, bid_price := 99, timestamp := 7 }, t1 := 8, t2 := 9,
    buyResp := Except.ok "3", sellResp := Except.ok "4",
    fb1 := { tNow := 0, r := 0, resp := Except.error "unused" },
    fb2 := { tNow := 0, r := 0, resp := Except.error "unused" } }

/-- C7, counterexample.  With both open legs on account A1 — a violation of
the claim's "one BUY and one SELL on distinct accounts" precondition —
`close_limit` raises no invariant error and places both closing orders on
A1, so the claim's "raises before placing any order on any precondition
violation" is false. -/
theorem c7_counterexample :
    (close_limit c7_state c7_orc).raised = none ∧
    (close_limit c7_state c7_orc).placed.map (fun o => o.account_id) = ["A1", "A1"] := by
  constructor
  · rfl
  · rfl

/-- State for the C7 witness: the legs on distinct accounts A1 and B1. -/
def c7w_state : RushTaskState :=
  { c7_state with filled_orders :=
      [FilledOrder.from_order (sample_order "1" "A1" OrderSide.BUY OrderHoldType.opn)
         (some (FilledPayload.ws (mkFilledMsg "1"))),
       FilledOrder.from_order (sample_order "2" "B1" OrderSide.SELL OrderHoldType.opn)
         (some (FilledPayload.ws (mkFilledMsg "2")))] }

/-- C7, witness: the contract applied to the concrete well-formed state. -/
theorem c7_witness :
    (close_limit c7w_state c7_orc).raised = none ∧
    (close_limit c7w_state c7_orc).placed =
      [{ price_time := 7, hold_type := OrderHoldType.cls,
         order_params := { symbol := "BTCUSDT", side := OrderSide.SELL, type := OrderType.LIMIT, timestamp := 8, price := some 101, quantity := some 1, timeInForce := some OrderTimeInForce.GTX },
         order_result_orderId := "3", account_id := "A1" },
       { price_time := 7, hold_type := OrderHoldType.cls,
         order_params := { symbol := "BTCUSDT", side := OrderSide.BUY, type := OrderType.LIMIT, timestamp := 9, price := some 99, quantity := some 1, timeInForce := some OrderTimeInForce.GTX },
         order_result_orderId := "4", account_id := "B1" }] ∧
    (close_limit c7w_state c7_orc).task.open_orders.length = 2 ∧
    (close_limit c7w_state c7_orc).task.stage = RushTaskStage.close_limit ∧
    (close_limit c7w_state c7_orc).task.status = c7w_state.status := by
  have h := c7_close_limit_contract.1 c7w_state c7_orc
    (FilledOrder.from_order (sample_order "1" "A1" OrderSide.BUY OrderHoldType.opn)
      (some (FilledPayload.ws (mkFilledMsg "1"))))
    (FilledOrder.from_order (sample_order "2" "B1" OrderSide.SELL OrderHoldType.opn)
      (some (FilledPayload.ws (mkFilledMsg "2"))))
    acctA acctB 1 1 "3" "4" rfl rfl (by rfl) (by rfl) (by rfl) (by rfl) rfl rfl rfl rfl
    (by simp) rfl
  simpa [c7w_state, c7_state, c7_orc, acctA, acctB, sample_order, sample_params,
    FilledOrder.from_order] using h

/-! ## Claim C3: status monotonicity -/

/-- Oracle for the C3 run: the close BUY leg is placed successfully (id
"cb") while the close SELL leg's placement raises, so `close_limit` marks
the task FAILED with the BUY closing order left registered. -/
def c3_orc : CloseLimitOracle :=
  { depth := { ask_price := 101, bid_price := 99, timestamp := 7 }, t1 := 8, t2 := 9,
    buyResp := Except.ok "cb", sellResp := Except.error "boom",
    fb1 := { tNow := 0, r := 0, resp := Except.error "unused" },
    fb2 := { tNow := 0, r := 0, resp := Except.error "unused" } }

/-- Market oracle for the C3 run (never consulted: `close_market` takes its
simultaneous branch). -/
def c3_mkt : MarketOracle :=
  { cancelResp := Except.ok (CancelPayload.exchange "c"), t1 := 0, t2 := 0, r := 0,
    orderResp := Except.error "unused" }

/-- C3: the code lets a FAILED task become COMPLETED.  Starting from the
task `c7w_state` (two filled open legs on accounts A1 and B1), `close_limit`
places the closing BUY successfully and fails on the closing SELL, marking
the task FAILED with the BUY order still registered.  The exchange then
fills that order; the FILLED callback runs `close_market`, which sees zero
outstanding orders and calls `finish`, overwriting FAILED with COMPLETED —
`change_status` has no forward-only guard. -/
theorem c3_failed_then_completed :
    (close_limit c7w_state c3_orc).task.status = RushTaskStatus.FAILED ∧
    (close_limit c7w_state c3_orc).task.open_orders.map Prod.fst = ["cb"] ∧
    (order_update_callback (close_limit c7w_state c3_orc).task (mkFilledMsg "cb")).2 =
      [Spawn.closeMarketTask] ∧
    (close_market (order_update_callback (close_limit c7w_state c3_orc).task
        (mkFilledMsg "cb")).1 c3_mkt).task.status = RushTaskStatus.COMPLETED ∧
    (close_market (order_update_callback (close_limit c7w_state c3_orc).task
        (mkFilledMsg "cb")).1 c3_mkt).task.stage = RushTaskStage.completed := by
  refine ⟨rfl, rfl, rfl, rfl, rfl⟩

/-! ## Interleaving semantics for the asynchronous races (C5, C6)

A configuration holds the task state together with the queue of ready
asyncio work items: websocket deliveries waiting to invoke the account
callback, spawned coroutines not yet run, and the resumption of a placement
call's registration loop.  A schedule picks which ready item runs next; each
item executes atomically up to its next suspension point, which matches the
single-threaded cooperative model of the source.  A spawned `hold` coroutine
only re-sets the stage `open_market` already set and then sleeps for the
configured hold duration, far beyond the modelled window, so it contributes
no further ready item. -/

/-- A ready unit of asyncio work. -/
inductive Pending where
  | deliverMsg (message : EventMsg)
  | runHandleFailed (order_id : String) (message : EventMsg)
  | runRegister (results : List (Except String Order)) (fbs : List FallbackOracle)
  | runOpenMarket
  | runCloseMarket
deriving DecidableEq, Repr, Inhabited

/-- Full configuration of one task plus its ready queue, with the cumulative
list of successfully placed orders, the raised-exception log, oracle streams
for dynamically spawned coroutines, and an instrumentation counter of
stage-advancing market runs. -/
structure Config where
  task : RushTaskState
  pending : List Pending
  placed : List Order
  raisedLog : List String
  fbs : List FallbackOracle
  mOrcs : List MarketOracle
  advances : Nat
deriving Repr

/-- Translate `asyncio.create_task` spawns into ready items. -/
def spawnsToPending : List Spawn → List Pending :=
  List.filterMap (fun s =>
    match s with
    | Spawn.handleFailed oid m => some (Pending.runHandleFailed oid m)
    | Spawn.openMarketTask => some Pending.runOpenMarket
    | Spawn.closeMarketTask => some Pending.runCloseMarket
    | Spawn.holdTask => none)

/-- Execute one ready item atomically. -/
def execPending (c : Config) (item : Pending) : Config :=
  match item with
  | Pending.deliverMsg m =>
      let r := order_update_callback c.task m
      { c with task := r.1, pending := c.pending ++ spawnsToPending r.2 }
  | Pending.runHandleFailed oid m =>
      let used := (c.task.open_orders.lookup oid).isSome
      let r := handle_failed_limit_order c.task oid m (c.fbs.headD default)
      { c with task := r.task, pending := c.pending ++ spawnsToPending r.spawns,
               placed := c.placed ++ r.placed, raisedLog := c.raisedLog ++ r.raised.toList,
               fbs := if used then c.fbs.drop 1 else c.fbs }
  | Pending.runRegister results fbs0 =>
      let r := register_orders c.task results fbs0
      { c with task := r.task, pending := c.pending ++ spawnsToPending r.spawns,
               placed := c.placed ++ r.placed, raisedLog := c.raisedLog ++ r.raised.toList }
  | Pending.runOpenMarket =>
      let r := open_market c.task (c.mOrcs.headD default)
      { c with task := r.task, pending := c.pending ++ spawnsToPending r.spawns,
               placed := c.placed ++ r.placed, raisedLog := c.raisedLog ++ r.raised.toList,
               mOrcs := if c.task.open_orders.isEmpty then c.mOrcs else c.mOrcs.drop 1,
               advances := c.advances + (if r.task.stage ≠ c.task.stage then 1 else 0) }
  | Pending.runCloseMarket =>
      let r := close_market c.task (c.mOrcs.headD default)
      { c with task := r.task, pending := c.pending ++ spawnsToPending r.spawns,
               placed := c.placed ++ r.placed, raisedLog := c.raisedLog ++ r.raised.toList,
               mOrcs := if c.task.open_orders.isEmpty then c.mOrcs else c.mOrcs.drop 1,
               advances := c.advances + (if r.task.stage ≠ c.task.stage then 1 else 0) }

/-- One scheduling step: the schedule entry selects a ready item (modulo the
queue length); with an empty queue the configuration is final. -/
def stepC (c : Config) (i : Nat) : Config :=
  match c.pending with
  | [] => c
  | _ =>
      let idx := i % c.pending.length
      let item := c.pending.getD idx default
      execPending { c with pending := c.pending.eraseIdx idx } item

/-- Run a whole schedule. -/
def runSched (c : Config) (sched : List Nat) : Config :=
  sched.foldl stepC c

/-- A final configuration absorbs further steps. -/
theorem stepC_nil (c : Config) (i : Nat) (h : c.pending = []) : stepC c i = c := by
  simp only [stepC, h]

/-- `change_stage` always yields the record with the stage overwritten. -/
theorem change_stage_eq (st : RushTaskState) (s : RushTaskStage) :
    change_stage st s = { st with stage := s } := by
  unfold change_stage
  split
  next h => cases st; simp_all
  · rfl

/-! ## Claim C5: early-expiry race -/

/-- Parameters of the early-expiry scenario: an arbitrary task (its
inessential fields free), the in-flight order `O` whose EXPIRED event raced
ahead of the placement acknowledgment, and the oracle for the fallback
market placement, whose response is `Except.ok nid`. -/
structure C5Params where
  id0 : String
  stage0 : RushTaskStage
  sym : String
  a1 : AccountCfg
  a2 : AccountCfg
  fl0 : List FilledOrder
  co0 : List CanceledOrder
  lg0 : List RushTaskLog
  O : Order
  fb : FallbackOracle
  nid : String
  q : ℚ

/-- The expired order's exchange id. -/
def c5_oid (p : C5Params) : String := p.O.order_result_orderId

/-- The EXPIRED event for that order. -/
def c5_msg (p : C5Params) : EventMsg := mkExpiredMsg (c5_oid p)

/-- The task before registration: `run`/`close_limit` has placed `O`, the
gather has not yet resumed, so no order is registered and the early-expiry
buffer is empty. -/
def c5_st0 (p : C5Params) : RushTaskState :=
  { id := p.id0, status := RushTaskStatus.STARTED, stage := p.stage0, symbol := p.sym,
    first_account := p.a1, second_account := p.a2, filled_orders := p.fl0,
    open_orders := [], cancel_orders := p.co0, logs := p.lg0,
    expired_order_id_map := [] }

/-- The fallback market order that `handle_failed_limit_order` submits. -/
def c5_mo (p : C5Params) : Order :=
  { price_time := p.O.price_time, hold_type := p.O.hold_type,
    order_params := { p.O.order_params with type := OrderType.MARKET, timeInForce := none, timestamp := p.fb.tNow, price := none },
    order_result_orderId := p.nid,
    account_id := (if p.O.account_id = p.a1.id then p.a1 else p.a2).id }

/-- Ready item that the fill of an order of the given purpose spawns. -/
def advPending : OrderHoldType → Pending
  | OrderHoldType.opn => Pending.runOpenMarket
  | OrderHoldType.cls => Pending.runCloseMarket

/-- Stage that `limit_order_on_filled` sets for the given purpose. -/
def stageAfterFill : OrderHoldType → RushTaskStage
  | OrderHoldType.opn => RushTaskStage.open_market
  | OrderHoldType.cls => RushTaskStage.close_market

/-- Initial configuration: the EXPIRED delivery and the registration
resumption are both ready, in either order. -/
def c5_cfgA (p : C5Params) : Config :=
  { task := c5_st0 p,
    pending := [Pending.deliverMsg (c5_msg p), Pending.runRegister [Except.ok p.O] [p.fb]],
    placed := [], raisedLog := [], fbs := [p.fb], mOrcs := [], advances := 0 }

/-- After the delivery ran first: the failed-limit handler is spawned,
registration still ready. -/
def c5_cfgB (p : C5Params) : Config :=
  { task := c5_st0 p,
    pending := [Pending.runRegister [Except.ok p.O] [p.fb], Pending.runHandleFailed (c5_oid p) (c5_msg p)],
    placed := [], raisedLog := [], fbs := [p.fb], mOrcs := [], advances := 0 }

/-- After registration ran first: `O` registered, delivery still ready. -/
def c5_cfgC (p : C5Params) : Config :=
  { task := { c5_st0 p with open_orders := [(c5_oid p, p.O)] },
    pending := [Pending.deliverMsg (c5_msg p)],
    placed := [], raisedLog := [], fbs := [p.fb], mOrcs := [], advances := 0 }

/-- Handler ran before registration: the expiry is parked in the buffer. -/
def c5_cfgD (p : C5Params) : Config :=
  { task := { c5_st0 p with expired_order_id_map := [(c5_oid p, c5_msg p)] },
    pending := [Pending.runRegister [Except.ok p.O] [p.fb]],
    placed := [], raisedLog := [], fbs := [p.fb], mOrcs := [], advances := 0 }

/-- `O` registered and the handler ready to run. -/
def c5_cfgE (p : C5Params) : Config :=
  { task := { c5_st0 p with open_orders := [(c5_oid p, p.O)] },
    pending := [Pending.runHandleFailed (c5_oid p) (c5_msg p)],
    placed := [], raisedLog := [], fbs := [p.fb], mOrcs := [], advances := 0 }

/-- After the single fallback placement: `O` canceled, the market order
placed, recorded as filled, and the phase-advance coroutine spawned.  `mp`
and `fb2` distinguish the two routes here: the parked route leaves the
buffer entry in place (the source never clears it) and its replay consumes
the registration loop's own oracle, while the direct route leaves the buffer
empty and consumes the config's stream. -/
def c5_cfgF (p : C5Params) (mp : List (String × EventMsg)) (fb2 : List FallbackOracle) :
    Config :=
  { task :=
      { id := p.id0, status := RushTaskStatus.STARTED,
        stage := stageAfterFill p.O.hold_type, symbol := p.sym,
        first_account := p.a1, second_account := p.a2,
        filled_orders := p.fl0 ++ [FilledOrder.from_order (c5_mo p) (some (FilledPayload.fallback (c5_msg p)))],
        open_orders := [],
        cancel_orders := p.co0 ++ [CanceledOrder.from_order p.O (CancelPayload.fromEvent (c5_msg p))],
        logs := p.lg0, expired_order_id_map := mp },
    pending := [advPending p.O.hold_type],
    placed := [c5_mo p], raisedLog := [], fbs := fb2, mOrcs := [], advances := 0 }

/-- Final configuration: the phase-advance ran, nothing is ready. -/
def c5_cfgG (p : C5Params) (mp : List (String × EventMsg)) (fb2 : List FallbackOracle) :
    Config :=
  { task :=
      match p.O.hold_type with
      | OrderHoldType.opn => change_stage (c5_cfgF p mp fb2).task RushTaskStage.hold
      | OrderHoldType.cls =>
          finish_task (change_stage (c5_cfgF p mp fb2).task RushTaskStage.completed),
    pending := [], placed := [c5_mo p], raisedLog := [], fbs := fb2, mOrcs := [],
    advances := 1 }

theorem c5_stepA (p : C5Params) (i : Nat) :
    stepC (c5_cfgA p) i = if i % 2 = 0 then c5_cfgB p else c5_cfgC p := by
  rcases Nat.mod_two_eq_zero_or_one i with h | h
  · simp [stepC, c5_cfgA, c5_cfgB, h, execPending, order_update_callback, c5_msg,
      mkExpiredMsg, pyStr, spawnsToPending]
  · simp [stepC, c5_cfgA, c5_cfgC, h, execPending, register_orders, c5_st0, c5_oid,
      dictInsert, spawnsToPending]

theorem c5_stepB (p : C5Params) (i : Nat) :
    stepC (c5_cfgB p) i = if i % 2 = 0 then c5_cfgE p else c5_cfgD p := by
  rcases Nat.mod_two_eq_zero_or_one i with h | h
  · simp [stepC, c5_cfgB, c5_cfgE, h, execPending, register_orders, c5_st0, c5_oid,
      dictInsert, spawnsToPending]
  · simp [stepC, c5_cfgB, c5_cfgD, h, execPending, handle_failed_limit_order, c5_st0,
      c5_oid, c5_msg, dictInsert, spawnsToPending]

theorem c5_stepCc (p : C5Params) (i : Nat) : stepC (c5_cfgC p) i = c5_cfgE p := by
  simp [stepC, c5_cfgC, c5_cfgE, Nat.mod_one, execPending, order_update_callback,
    c5_msg, mkExpiredMsg, pyStr, spawnsToPending]

theorem c5_stepD (p : C5Params) (hq : p.O.order_params.quantity = some p.q)
    (hresp : p.fb.resp = Except.ok p.nid) (i : Nat) :
    stepC (c5_cfgD p) i = c5_cfgF p [(c5_oid p, c5_msg p)] [p.fb] := by
  rcases hh : p.O.hold_type with _ | _ <;>
    simp [stepC, c5_cfgD, c5_cfgF, Nat.mod_one, execPending, register_orders,
      handle_failed_limit_order, limit_order_on_filled, account_order, place_order,
      c5_st0, c5_oid, c5_msg, c5_mo, dictInsert, dictPop, List.eraseP, spawnsToPending,
      hq, hresp, hh, stageAfterFill, advPending, change_stage_eq,
      FilledOrder.from_order, CanceledOrder.from_order]

theorem c5_stepE (p : C5Params) (hq : p.O.order_params.quantity = some p.q)
    (hresp : p.fb.resp = Except.ok p.nid) (i : Nat) :
    stepC (c5_cfgE p) i = c5_cfgF p [] [] := by
  rcases hh : p.O.hold_type with _ | _ <;>
    simp [stepC, c5_cfgE, c5_cfgF, Nat.mod_one, execPending,
      handle_failed_limit_order, limit_order_on_filled, account_order, place_order,
      c5_st0, c5_oid, c5_msg, c5_mo, dictInsert, dictPop, List.eraseP, spawnsToPending,
      hq, hresp, hh, stageAfterFill, advPending, change_stage_eq,
      FilledOrder.from_order, CanceledOrder.from_order]

theorem c5_stepF (p : C5Params) (mp : List (String × EventMsg))
    (fb2 : List FallbackOracle) (i : Nat) :
    stepC (c5_cfgF p mp fb2) i = c5_cfgG p mp fb2 := by
  rcases hh : p.O.hold_type with _ | _ <;>
    simp [stepC, c5_cfgF, c5_cfgG, Nat.mod_one, execPending, open_market, close_market,
      hh, stageAfterFill, advPending, change_stage_eq, finish_task, spawnsToPending]

/-- Reachable configurations of the early-expiry scenario. -/
def c5_inv (p : C5Params) (c : Config) : Prop :=
  c = c5_cfgA p ∨ c = c5_cfgB p ∨ c = c5_cfgC p ∨ c = c5_cfgD p ∨ c = c5_cfgE p ∨
  (∃ mp fb2, ((mp = [] ∧ fb2 = []) ∨ (mp = [(c5_oid p, c5_msg p)] ∧ fb2 = [p.fb])) ∧
    (c = c5_cfgF p mp fb2 ∨ c = c5_cfgG p mp fb2))

theorem c5_inv_step (p : C5Params) (hq : p.O.order_params.quantity = some p.q)
    (hresp : p.fb.resp = Except.ok p.nid) (c : Config) (i : Nat)
    (h : c5_inv p c) : c5_inv p (stepC c i) := by
  rcases h with h | h | h | h | h | ⟨mp, fb2, hmf, h | h⟩
  · subst h
    rw [c5_stepA p i]
    split
    · exact Or.inr (Or.inl rfl)
    · exact Or.inr (Or.inr (Or.inl rfl))
  · subst h
    rw [c5_stepB p i]
    split
    · exact Or.inr (Or.inr (Or.inr (Or.inr (Or.inl rfl))))
    · exact Or.inr (Or.inr (Or.inr (Or.inl rfl)))
  · subst h
    rw [c5_stepCc p i]
    exact Or.inr (Or.inr (Or.inr (Or.inr (Or.inl rfl))))
  · subst h
    rw [c5_stepD p hq hresp i]
    exact Or.inr (Or.inr (Or.inr (Or.inr (Or.inr
      ⟨[(c5_oid p, c5_msg p)], [p.fb], Or.inr ⟨rfl, rfl⟩, Or.inl rfl⟩))))
  · subst h
    rw [c5_stepE p hq hresp i]
    exact Or.inr (Or.inr (Or.inr (Or.inr (Or.inr ⟨[], [], Or.inl ⟨rfl, rfl⟩, Or.inl rfl⟩))))
  · subst h
    rw [c5_stepF p mp fb2 i]
    exact Or.inr (Or.inr (Or.inr (Or.inr (Or.inr ⟨mp, fb2, hmf, Or.inr rfl⟩))))
  · subst h
    rw [stepC_nil _ i rfl]
    exact Or.inr (Or.inr (Or.inr (Or.inr (Or.inr ⟨mp, fb2, hmf, Or.inr rfl⟩))))

theorem c5_inv_run (p : C5Params) (hq : p.O.order_params.quantity = some p.q)
    (hresp : p.fb.resp = Except.ok p.nid) (sched : List Nat) (c : Config)
    (h : c5_inv p c) : c5_inv p (runSched c sched) := by
  induction sched generalizing c with
  | nil => exact h
  | cons i rest ih => exact ih (stepC c i) (c5_inv_step p hq hresp c i h)

/-- C5.  In the early-expiry race — the EXPIRED event for order `O` is
delivered before the placement call registers `O` — every interleaving of
the event callback and the placement coroutine's registration resumption
submits at most one fallback market order, every completed interleaving
(empty ready queue) submits exactly one, and it is a MARKET order; a
completing schedule exists. -/
theorem c5_early_expiry_single_fallback (p : C5Params)
    (hq : p.O.order_params.quantity = some p.q)
    (hresp : p.fb.resp = Except.ok p.nid) (sched : List Nat) :
    (runSched (c5_cfgA p) sched).placed.length ≤ 1 ∧
    ((runSched (c5_cfgA p) sched).pending = [] →
      (runSched (c5_cfgA p) sched).placed = [c5_mo p] ∧
      (c5_mo p).order_params.type = OrderType.MARKET) ∧
    (runSched (c5_cfgA p) [0, 1, 0, 0]).pending = [] := by
  have hinv := c5_inv_run p hq hresp sched (c5_cfgA p) (Or.inl rfl)
  refine ⟨?_, ?_, ?_⟩
  · rcases hinv with h | h | h | h | h | ⟨mp, fb2, hmf, h | h⟩ <;> rw [h] <;>
      simp [c5_cfgA, c5_cfgB, c5_cfgC, c5_cfgD, c5_cfgE, c5_cfgF, c5_cfgG]
  · intro hp
    rcases hinv with h | h | h | h | h | ⟨mp, fb2, hmf, h | h⟩ <;> rw [h] at hp ⊢ <;>
      first
        | (exact absurd hp (by simp [c5_cfgA, c5_cfgB, c5_cfgC, c5_cfgD, c5_cfgE, c5_cfgF]))
        | exact ⟨rfl, rfl⟩
  · have e1 : stepC (c5_cfgA p) 0 = c5_cfgB p := by
      rw [c5_stepA]
      norm_num
    have e2 : stepC (c5_cfgB p) 1 = c5_cfgD p := by
      rw [c5_stepB]
      norm_num
    show (stepC (stepC (stepC (stepC (c5_cfgA p) 0) 1) 0) 0).pending = []
    rw [e1, e2, c5_stepD p hq hresp 0, c5_stepF]
    rfl

/-- Concrete parameters for the C5 witness. -/
def c5_pw : C5Params :=
  { id0 := "T5", stage0 := RushTaskStage.open_limit, sym := "BTCUSDT", a1 := acctA,
    a2 := acctB, fl0 := [], co0 := [], lg0 := [],
    O := sample_order "9" "A1" OrderSide.BUY OrderHoldType.opn,
    fb := { tNow := 3, r := 0, resp := Except.ok "10" }, nid := "10", q := 1 }

/-- C5, witness: the theorem applied at concrete parameters and the
completing schedule. -/
theorem c5_witness :
    (runSched (c5_cfgA c5_pw) [0, 1, 0, 0]).placed.length ≤ 1 ∧
    ((runSched (c5_cfgA c5_pw) [0, 1, 0, 0]).pending = [] →
      (runSched (c5_cfgA c5_pw) [0, 1, 0, 0]).placed = [c5_mo c5_pw] ∧
      (c5_mo c5_pw).order_params.type = OrderType.MARKET) ∧
    (runSched (c5_cfgA c5_pw) [0, 1, 0, 0]).pending = [] :=
  c5_early_expiry_single_fallback c5_pw rfl rfl [0, 1, 0, 0]

/-! ## Claim C6: simultaneous-fill race -/

/-- Parameters of the simultaneous-fill scenario: a task with both legs
outstanding, both of the same purpose `h` (open or close), and both FILLED
events already delivered by the stream. -/
structure C6Params where
  id0 : String
  stage0 : RushTaskStage
  sym : String
  a1 : AccountCfg
  a2 : AccountCfg
  fl0 : List FilledOrder
  co0 : List CanceledOrder
  lg0 : List RushTaskLog
  O1 : Order
  O2 : Order
  h : OrderHoldType

/-- First leg's order id. -/
def c6_i1 (p : C6Params) : String := p.O1.order_result_orderId

/-- Second leg's order id. -/
def c6_i2 (p : C6Params) : String := p.O2.order_result_orderId

/-- The task with both legs outstanding. -/
def c6_st0 (p : C6Params) : RushTaskState :=
  { id := p.id0, status := RushTaskStatus.STARTED, stage := p.stage0, symbol := p.sym,
    first_account := p.a1, second_account := p.a2, filled_orders := p.fl0,
    open_orders := [(c6_i1 p, p.O1), (c6_i2 p, p.O2)], cancel_orders := p.co0,
    logs := p.lg0, expired_order_id_map := [] }

/-- Initial configuration: both FILLED deliveries ready, no handler run. -/
def c6_init (p : C6Params) : Config :=
  { task := c6_st0 p,
    pending := [Pending.deliverMsg (mkFilledMsg (c6_i1 p)),
                Pending.deliverMsg (mkFilledMsg (c6_i2 p))],
    placed := [], raisedLog := [], fbs := [], mOrcs := [], advances := 0 }

/-- Configuration after both deliveries ran (and before either spawned
market handler): both legs moved to filled, zero outstanding, two identical
phase-advance coroutines ready. -/
def c6_cfgH0 (p : C6Params) : Config :=
  { task :=
      { id := p.id0, status := RushTaskStatus.STARTED,
        stage := stageAfterFill p.h, symbol := p.sym,
        first_account := p.a1, second_account := p.a2,
        filled_orders := p.fl0 ++
          [FilledOrder.from_order p.O1 (some (FilledPayload.ws (mkFilledMsg (c6_i1 p)))),
           FilledOrder.from_order p.O2 (some (FilledPayload.ws (mkFilledMsg (c6_i2 p))))],
        open_orders := [], cancel_orders := p.co0, logs := p.lg0,
        expired_order_id_map := [] },
    pending := [advPending p.h, advPending p.h],
    placed := [], raisedLog := [], fbs := [], mOrcs := [], advances := 0 }

/-- Configuration after the first phase-advance coroutine ran: the task
advanced (HOLD after open, COMPLETED after close), one advance counted, the
second coroutine still ready. -/
def c6_cfgH1 (p : C6Params) : Config :=
  { task :=
      match p.h with
      | OrderHoldType.opn => change_stage (c6_cfgH0 p).task RushTaskStage.hold
      | OrderHoldType.cls =>
          finish_task (change_stage (c6_cfgH0 p).task RushTaskStage.completed),
    pending := [advPending p.h],
    placed := [], raisedLog := [], fbs := [], mOrcs := [], advances := 1 }

/-- Final configuration: the second coroutine observed the advance already
taken and did nothing. -/
def c6_cfgH2 (p : C6Params) : Config :=
  { c6_cfgH1 p with pending := [] }

theorem c6_deliveries (p : C6Params) (hh1 : p.O1.hold_type = p.h)
    (hh2 : p.O2.hold_type = p.h) :
    stepC (stepC (c6_init p) 0) 0 = c6_cfgH0 p := by
  rcases hh : p.h with _ | _ <;>
    simp [stepC, c6_init, c6_cfgH0, execPending, order_update_callback,
      limit_order_on_filled, mkFilledMsg, pyStr, c6_st0, c6_i1, c6_i2, dictPop,
      List.eraseP, spawnsToPending, hh, hh1, hh2, stageAfterFill, advPending,
      change_stage_eq, FilledOrder.from_order, List.lookup]

theorem c6_stepH0 (p : C6Params) (i : Nat) : stepC (c6_cfgH0 p) i = c6_cfgH1 p := by
  rcases Nat.mod_two_eq_zero_or_one i with h | h <;>
    rcases hh : p.h with _ | _ <;>
      simp [stepC, c6_cfgH0, c6_cfgH1, h, execPending, open_market, close_market, hh,
        stageAfterFill, advPending, change_stage_eq, finish_task, spawnsToPending]

theorem c6_stepH1 (p : C6Params) (i : Nat) : stepC (c6_cfgH1 p) i = c6_cfgH2 p := by
  rcases hh : p.h with _ | _ <;>
    simp [stepC, c6_cfgH1, c6_cfgH2, c6_cfgH0, Nat.mod_one, execPending, open_market,
      close_market, hh, stageAfterFill, advPending, change_stage_eq, finish_task,
      change_status, spawnsToPending]

/-- Reachable configurations of the simultaneous-fill scenario after both
deliveries. -/
def c6_inv (p : C6Params) (c : Config) : Prop :=
  c = c6_cfgH0 p ∨ c = c6_cfgH1 p ∨ c = c6_cfgH2 p

theorem c6_inv_step (p : C6Params) (c : Config) (i : Nat) (h : c6_inv p c) :
    c6_inv p (stepC c i) := by
  rcases h with h | h | h
  · subst h
    rw [c6_stepH0 p i]
    exact Or.inr (Or.inl rfl)
  · subst h
    rw [c6_stepH1 p i]
    exact Or.inr (Or.inr rfl)
  · subst h
    rw [stepC_nil _ i rfl]
    exact Or.inr (Or.inr rfl)

theorem c6_inv_run (p : C6Params) (sched : List Nat) (c : Config) (h : c6_inv p c) :
    c6_inv p (runSched c sched) := by
  induction sched generalizing c with
  | nil => exact h
  | cons i rest ih => exact ih (stepC c i) (c6_inv_step p c i h)

/-- C6.  If both legs' FILLED events are delivered before either spawned
market handler runs, then for every subsequent interleaving of the two
handlers the task advances at most once; when the run completes it has
advanced exactly once — to HOLD after the open phase, to COMPLETED after the
close phase — placing no order, and a completing schedule exists. -/
theorem c6_simultaneous_fill_single_advance (p : C6Params)
    (hh1 : p.O1.hold_type = p.h) (hh2 : p.O2.hold_type = p.h) (rest : List Nat) :
    (runSched (c6_init p) (0 :: 0 :: rest)).advances ≤ 1 ∧
    (runSched (c6_init p) (0 :: 0 :: rest)).placed = [] ∧
    ((runSched (c6_init p) (0 :: 0 :: rest)).pending = [] →
      (runSched (c6_init p) (0 :: 0 :: rest)).advances = 1 ∧
      (p.h = OrderHoldType.opn →
        (runSched (c6_init p) (0 :: 0 :: rest)).task.stage = RushTaskStage.hold ∧
        (runSched (c6_init p) (0 :: 0 :: rest)).task.status = RushTaskStatus.STARTED) ∧
      (p.h = OrderHoldType.cls →
        (runSched (c6_init p) (0 :: 0 :: rest)).task.status = RushTaskStatus.COMPLETED ∧
        (runSched (c6_init p) (0 :: 0 :: rest)).task.stage = RushTaskStage.completed)) ∧
    (runSched (c6_init p) [0, 0, 0, 0]).pending = [] := by
  have hrw : runSched (c6_init p) (0 :: 0 :: rest) = runSched (c6_cfgH0 p) rest := by
    show runSched (stepC (stepC (c6_init p) 0) 0) rest = _
    rw [c6_deliveries p hh1 hh2]
  have hinv := c6_inv_run p rest (c6_cfgH0 p) (Or.inl rfl)
  rw [hrw]
  refine ⟨?_, ?_, ?_, ?_⟩
  · rcases hinv with h | h | h <;> rw [h] <;> simp [c6_cfgH0, c6_cfgH1, c6_cfgH2]
  · rcases hinv with h | h | h <;> rw [h] <;> simp [c6_cfgH0, c6_cfgH1, c6_cfgH2]
  · intro hp
    rcases hinv with h | h | h <;> rw [h] at hp ⊢
    · exact absurd hp (by simp [c6_cfgH0])
    · exact absurd hp (by simp [c6_cfgH1])
    · refine ⟨rfl, ?_, ?_⟩
      · intro hopn
        simp [c6_cfgH2, c6_cfgH1, c6_cfgH0, hopn, change_stage_eq]
      · intro hcls
        simp [c6_cfgH2, c6_cfgH1, c6_cfgH0, hcls, change_stage_eq, finish_task,
          change_status]
  · show (stepC (stepC (stepC (stepC (c6_init p) 0) 0) 0) 0).pending = []
    rw [c6_deliveries p hh1 hh2, c6_stepH0, c6_stepH1]
    rfl

/-- Concrete parameters for the C6 witness: two filled open legs on A1 and
B1. -/
def c6_pw : C6Params :=
  { id0 := "T6", stage0 := RushTaskStage.open_limit, sym := "BTCUSDT", a1 := acctA,
    a2 := acctB, fl0 := [], co0 := [], lg0 := [],
    O1 := sample_order "1" "A1" OrderSide.BUY OrderHoldType.opn,
    O2 := sample_order "2" "B1" OrderSide.SELL OrderHoldType.opn,
    h := OrderHoldType.opn }

/-- C6, witness: the theorem applied at concrete parameters with the
completing schedule. -/
theorem c6_witness :
    (runSched (c6_init c6_pw) (0 :: 0 :: [0, 0])).advances ≤ 1 ∧
    (runSched (c6_init c6_pw) (0 :: 0 :: [0, 0])).placed = [] ∧
    ((runSched (c6_init c6_pw) (0 :: 0 :: [0, 0])).pending = [] →
      (runSched (c6_init c6_pw) (0 :: 0 :: [0, 0])).advances = 1 ∧
      (c6_pw.h = OrderHoldType.opn →
        (runSched (c6_init c6_pw) (0 :: 0 :: [0, 0])).task.stage = RushTaskStage.hold ∧
        (runSched (c6_init c6_pw) (0 :: 0 :: [0, 0])).task.status = RushTaskStatus.STARTED) ∧
      (c6_pw.h = OrderHoldType.cls →
        (runSched (c6_init c6_pw) (0 :: 0 :: [0, 0])).task.status = RushTaskStatus.COMPLETED ∧
        (runSched (c6_init c6_pw) (0 :: 0 :: [0, 0])).task.stage = RushTaskStage.completed)) ∧
    (runSched (c6_init c6_pw) [0, 0, 0, 0]).pending = [] :=
  c6_simultaneous_fill_single_advance c6_pw rfl rfl [0, 0]

/-! ## Scheduler (`src/lib/RushEngine.py`)

The engine state keeps the scheduler-owned collections.  A running task is
stored by value in `running_tasks` (the scheduler reads only its immutable
identity fields and its mutable `status`); the occupancy index
`account_running_tasks` stores, per account id, the dict task id ↦ task,
of which the scheduler reads only the task's immutable `symbol` — so the
index entries are modelled as `(task id, symbol)` pairs, which sidesteps the
aliasing of the shared task objects: `status` is read from `running_tasks`
only and `symbol` never changes after construction. -/

/-- The scheduler's per-task record. -/
structure EngTask where
  id : String
  symbol : String
  first_account_id : String
  second_account_id : String
  status : RushTaskStatus
deriving DecidableEq, Repr, Inhabited

/-- Scheduler state (`RushEngine` fields plus the two ambient signal files
`shutdown`/`error` as flags, plus the static `config.symbols` list and the
per-account supported-market lists read from `account.symbols`). -/
structure EngineState where
  symbols : List String
  accounts : List (String × List String)
  running_tasks : List (String × EngTask)
  completed_tasks : List EngTask
  failed_tasks : List EngTask
  account_running_tasks : List (String × List (String × String))
  stop_flag : Bool
  error_flag : Bool
deriving DecidableEq, Repr, Inhabited

/-- Eligibility of one account for one market inside
`generate_available_account_symbols` (lines 80–91): the account supports the
market and has no running task on it in the occupancy index. -/
def account_eligible (st : EngineState) (symbol aid : String) (syms : List String) : Bool :=
  symbol ∈ syms &&
    (match st.account_running_tasks.lookup aid with
     | none => true
     | some tasks => !(tasks.any (fun p => p.2 == symbol)))

/-- `RushEngine.generate_available_account_symbols` (lines 70–96): for each
configured market the accounts eligible for it, dropping markets with fewer
than two eligible accounts. -/
def generate_available_account_symbols (st : EngineState) : List (String × List String) :=
  (st.symbols.map (fun s =>
    (s, (st.accounts.filter (fun p => account_eligible st s p.1 p.2)).map Prod.fst))).filter
    (fun p => 2 ≤ p.2.length)

/-- The three `random.choice` draws of `generate_next_task` plus the fresh
task id, supplied as oracle inputs (an index modulo the list length models a
uniform pick). -/
structure GenChoice where
  symIdx : Nat
  aIdx : Nat
  bIdx : Nat
  tid : String
deriving DecidableEq, Repr, Inhabited

/-- `RushEngine.generate_next_task` (lines 98–120), returning the picked
market and the two account ids (the caller builds the task): `None` when no
market is eligible, when the picked market's list has fewer than two
entries, or when the two picked accounts coincide. -/
def generate_next_task (st : EngineState) (c : GenChoice) : Option (String × String × String) :=
  let available_account_symbols := generate_available_account_symbols st
  if available_account_symbols.length = 0 then none
  else
    let keys := available_account_symbols.map Prod.fst
    let picked_symbol := keys.getD (c.symIdx % keys.length) ""
    let available_account_ids := (available_account_symbols.lookup picked_symbol).getD []
    if available_account_ids.length < 2 then none
    else
      let first_account_id := available_account_ids.getD (c.aIdx % available_account_ids.length) ""
      let remaining := available_account_ids.erase first_account_id
      let second_account_id := remaining.getD (c.bIdx % remaining.length) ""
      if first_account_id = second_account_id then none
      else some (picked_symbol, first_account_id, second_account_id)

/-- Insert a `(task id, symbol)` binding for one account into the occupancy
index (`task_runner` lines 168–171: create the inner dict if absent, then
`[task.id] = task`). -/
def account_map_add (m : List (String × List (String × String))) (aid tid sym : String) :
    List (String × List (String × String)) :=
  match m.lookup aid with
  | none => m ++ [(aid, [(tid, sym)])]
  | some _ => dictUpdate aid (dictInsert tid sym) m

/-- Launch of a freshly generated task (`task_runner` lines 165–175): store
it as running and bind both accounts in the occupancy index.  The spawned
`task.run()` body runs asynchronously and is modelled by separate status
steps. -/
def launch_task (st : EngineState) (tid sym a1 a2 : String) : EngineState :=
  let task : EngTask :=
    { id := tid, symbol := sym, first_account_id := a1, second_account_id := a2,
      status := RushTaskStatus.CREATED }
  { st with running_tasks := dictInsert tid task st.running_tasks,
            account_running_tasks := account_map_add (account_map_add
              st.account_running_tasks a1 tid sym) a2 tid sym }

/-- Remove one finished task's bindings from the occupancy index
(`remove_finished_tasks` lines 134–136 and 141–143). -/
def pop_task_accounts (m : List (String × List (String × String))) (task : EngTask) :
    List (String × List (String × String)) :=
  [task.first_account_id, task.second_account_id].foldl
    (fun m aid =>
      match m.lookup aid with
      | none => m
      | some _ => dictUpdate aid (dictPop task.id) m) m

/-- Loop body of `RushEngine.remove_finished_tasks` (lines 122–150),
mutating the engine state task by task; a FAILED task raises immediately —
before the collected completed ids are removed from `running_tasks` — so
the returned state is the partially mutated one. -/
def remove_finished_go : List (String × EngTask) → EngineState → List String →
    EngineState × Option String
  | [], st, remove_ids =>
      ({ st with running_tasks := remove_ids.foldl (fun r tid => dictPop tid r) st.running_tasks }, none)
  | (task_id, task) :: rest, st, remove_ids =>
      if task.status = RushTaskStatus.COMPLETED then
        remove_finished_go rest
          { st with completed_tasks := st.completed_tasks ++ [task],
                    account_running_tasks := pop_task_accounts st.account_running_tasks task }
          (remove_ids ++ [task_id])
      else if task.status = RushTaskStatus.FAILED then
        ({ st with failed_tasks := st.failed_tasks ++ [task],
                   account_running_tasks := pop_task_accounts st.account_running_tasks task },
         some ("task " ++ task_id ++ " failed; the accounts may hold unfinished orders"))
      else remove_finished_go rest st remove_ids

/-- `RushEngine.remove_finished_tasks`: sweep the running tasks, returning
the new state and the raised error, if any. -/
def remove_finished_tasks (st : EngineState) : EngineState × Option String :=
  remove_finished_go st.running_tasks st []

/-- Inner loop of `task_runner` step 2 (lines 161–175): while the running
count is under the concurrency bound, generate and launch tasks.  `choices`
supplies the random draws per iteration, `env` models everything the other
coroutines do during each `await asyncio.sleep(1)` (task-status changes,
signal-file flips), `k` is the suspension counter.  The fuel bounds the
iteration count; the caller passes `maxConc + 1`, enough for the loop to
reach its bound or a `None` generation. -/
def spawn_new_tasks (fuel maxConc : Nat) (choices : Nat → GenChoice)
    (env : Nat → EngineState → EngineState) (k : Nat) (st : EngineState) :
    EngineState × Nat :=
  match fuel with
  | 0 => (st, k)
  | fuel + 1 =>
      if st.running_tasks.length < maxConc then
        match generate_next_task st (choices k) with
        | none => (st, k + 1)
        | some (sym, a1, a2) =>
            let st := launch_task st (choices k).tid sym a1 a2
            let st := env k st
            spawn_new_tasks fuel maxConc choices env (k + 1) st
      else (st, k)

/-- Result of the drain loop. -/
structure DrainRes where
  st : EngineState
  k : Nat
  err : Option String
  fuelOut : Bool
deriving Repr

/-- Drain loop of `task_runner` (lines 189–194): while tasks are running,
sweep finished tasks (a FAILED task raises out of the sweep), sleep, and
break early when the error flag appears. -/
def drain_loop (fuel : Nat) (env : Nat → EngineState → EngineState) (k : Nat)
    (st : EngineState) : DrainRes :=
  match fuel with
  | 0 => { st := st, k := k, err := none, fuelOut := true }
  | fuel + 1 =>
      if st.running_tasks.length > 0 then
        match remove_finished_tasks st with
        | (st1, some e) => { st := st1, k := k, err := some e, fuelOut := false }
        | (st1, none) =>
            let st2 := env k st1
            if st2.error_flag then { st := st2, k := k + 1, err := none, fuelOut := false }
            else drain_loop fuel env (k + 1) st2
      else { st := st, k := k, err := none, fuelOut := false }

/-- How a `task_runner` invocation ended. -/
inductive RunExit where
  | fuelOut
  | taskFailure (msg : String)
  | errorFlagged
  | normal
deriving DecidableEq, Repr

/-- Outcome of `task_runner`: the final engine state, whether the
reconciliation sweep `clear_all` (cancel all resting orders and flatten all
positions on every account) was performed, and how the run ended. -/
structure RunnerOutcome where
  state : EngineState
  cleared_all : Bool
  exit : RunExit
deriving Repr

/-- `RushEngine.task_runner` (lines 152–205).  The main loop: sweep finished
tasks (step 1; a FAILED task raises the `ValueError` of
`remove_finished_tasks`, which nothing catches, so the coroutine exits
without reaching `clear_all`), spawn new tasks up to the bound (step 2),
sleep (step 4).  On loop exit: mark tasks stopped (the source assigns
`task.stop`, a field `RushTask` neither declares nor reads — no modelled
effect), drain, then `save_tasks` (file persistence, no modelled effect),
`clear_all`, close the account connections, and finally raise if the error
flag is set.  `times` is the target terminal-task count, `maxConc` the
concurrency bound. -/
def task_runner (fuel times maxConc : Nat) (choices : Nat → GenChoice)
    (env : Nat → EngineState → EngineState) (k : Nat) (st : EngineState) : RunnerOutcome :=
  match fuel with
  | 0 => { state := st, cleared_all := false, exit := RunExit.fuelOut }
  | fuel + 1 =>
      if ¬ st.stop_flag ∧ st.completed_tasks.length + st.failed_tasks.length < times then
        match remove_finished_tasks st with
        | (st1, some e) => { state := st1, cleared_all := false, exit := RunExit.taskFailure e }
        | (st1, none) =>
            let r := spawn_new_tasks (maxConc + 1) maxConc choices env k st1
            let st3 := env r.2 r.1
            task_runner fuel times maxConc choices env (r.2 + 1) st3
      else
        let d := drain_loop (fuel + 1) env k st
        if d.fuelOut then { state := d.st, cleared_all := false, exit := RunExit.fuelOut }
        else
          match d.err with
          | some e => { state := d.st, cleared_all := false, exit := RunExit.taskFailure e }
          | none =>
              let stC := env d.k d.st
              if stC.error_flag then
                { state := stC, cleared_all := true, exit := RunExit.errorFlagged }
              else { state := stC, cleared_all := true, exit := RunExit.normal }

/-! ## Claim C1: reconciliation on task failure -/

/-- Helper: the sweep raises whenever some running task is FAILED. -/
theorem remove_finished_go_raises (l : List (String × EngTask)) (st : EngineState)
    (acc : List String) (h : ∃ p ∈ l, p.2.status = RushTaskStatus.FAILED) :
    (remove_finished_go l st acc).2.isSome := by
  induction l generalizing st acc with
  | nil =>
      obtain ⟨p, hp, -⟩ := h
      cases hp
  | cons q rest ih =>
      obtain ⟨p, hp, hps⟩ := h
      rcases List.mem_cons.mp hp with rfl | hmem
      · by_cases hc : p.2.status = RushTaskStatus.COMPLETED
        · rw [hps] at hc
          cases hc
        · obtain ⟨tid, task⟩ := p
          simp only [remove_finished_go]
          rw [if_neg hc, if_pos hps]
          rfl
      · obtain ⟨tid, task⟩ := q
        simp only [remove_finished_go]
        split
        · exact ih _ _ ⟨p, hmem, hps⟩
        · split
          · rfl
          · exact ih _ _ ⟨p, hmem, hps⟩

/-- Helper: the sweep raises whenever some running task is FAILED. -/
theorem remove_finished_tasks_raises (st : EngineState)
    (h : ∃ p ∈ st.running_tasks, p.2.status = RushTaskStatus.FAILED) :
    (remove_finished_tasks st).2.isSome :=
  remove_finished_go_raises st.running_tasks st [] h

/-- C1, amended.  If any running task has reached FAILED when `task_runner`
resumes, the run exits with the `ValueError` raised inside
`remove_finished_tasks` and the reconciliation sweep `clear_all` is NOT
performed: the exception propagates out of the run loop before step 6 is
reached.  (`clear_all` runs, before the final raise, only on the external
error-flag path.) -/
theorem c1_failed_task_skips_clear_all (fuel times maxConc : Nat)
    (choices : Nat → GenChoice) (env : Nat → EngineState → EngineState) (k : Nat)
    (st : EngineState) (hfuel : 1 ≤ fuel)
    (hfail : ∃ p ∈ st.running_tasks, p.2.status = RushTaskStatus.FAILED) :
    (task_runner fuel times maxConc choices env k st).cleared_all = false ∧
    ∃ m, (task_runner fuel times maxConc choices env k st).exit = RunExit.taskFailure m := by
  obtain ⟨f, rfl⟩ : ∃ f, fuel = f + 1 := ⟨fuel - 1, by omega⟩
  have hsome := remove_finished_tasks_raises st hfail
  rcases hr : remove_finished_tasks st with ⟨st1, err⟩
  rcases err with _ | e
  · rw [hr] at hsome
    cases hsome
  · have hpos : 0 < st.running_tasks.length := by
      obtain ⟨p, hp, -⟩ := hfail
      exact List.length_pos.mpr (List.ne_nil_of_mem hp)
    by_cases hg : st.stop_flag = false ∧ st.completed_tasks.length + st.failed_tasks.length < times
    · refine ⟨?_, e, ?_⟩ <;> simp [task_runner, hr, hg]
    · have hd : drain_loop (f + 1) env k st =
          { st := st1, k := k, err := some e, fuelOut := false } := by
        simp only [drain_loop, if_pos hpos, hr]
      refine ⟨?_, e, ?_⟩ <;> simp [task_runner, hr, hg, hd]

/-- The FAILED fixture task of the C1 run. -/
def c1_task : EngTask :=
  { id := "t1", symbol := "BTCUSDT", first_account_id := "A1", second_account_id := "B1",
    status := RushTaskStatus.FAILED }

/-- Engine state of the C1 run: one running task that has FAILED. -/
def c1_state : EngineState :=
  { symbols := ["BTCUSDT"], accounts := [("A1", ["BTCUSDT"]), ("B1", ["BTCUSDT"])],
    running_tasks := [("t1", c1_task)], completed_tasks := [], failed_tasks := [],
    account_running_tasks := [("A1", [("t1", "BTCUSDT")]), ("B1", [("t1", "BTCUSDT")])],
    stop_flag := false, error_flag := false }

/-- C1, counterexample.  On a run whose single task has FAILED the scheduler
raises the task-failure error with `cleared_all = false`: the claim that the
reconciliation sweep still runs before the fatal condition propagates is
false on this input. -/
theorem c1_counterexample :
    (task_runner 1 100 1 (fun _ => default) (fun _ s => s) 0 c1_state).exit =
      RunExit.taskFailure "task t1 failed; the accounts may hold unfinished orders" ∧
    (task_runner 1 100 1 (fun _ => default) (fun _ s => s) 0 c1_state).cleared_all = false := by
  constructor
  · rfl
  · rfl

/-- C1, witness: the amended theorem applied at the concrete state. -/
theorem c1_witness :
    (task_runner 1 100 1 (fun _ => default) (fun _ s => s) 0 c1_state).cleared_all = false ∧
    ∃ m, (task_runner 1 100 1 (fun _ => default) (fun _ s => s) 0 c1_state).exit =
      RunExit.taskFailure m :=
  c1_failed_task_skips_clear_all 1 100 1 (fun _ => default) (fun _ s => s) 0 c1_state
    (le_refl 1) ⟨("t1", c1_task), by simp [c1_state], rfl⟩

/-! ## Claim C2: occupancy exclusivity -/

/-- No two bindings of one account's occupancy dict share a market. -/
def no_dup_symbols : List (String × String) → Bool
  | [] => true
  | p :: rest => !(rest.any (fun q => q.2 == p.2)) && no_dup_symbols rest

/-- The claimed invariant: in the occupancy index no account id maps to two
tasks bound to the same market. -/
def occ_map_ok (m : List (String × List (String × String))) : Bool :=
  m.all (fun e => no_dup_symbols e.2)

/-- The invariant read off an engine state. -/
def occupancy_ok (st : EngineState) : Bool :=
  occ_map_ok st.account_running_tasks

/-- Helper: an element satisfying `f` after an insert is the inserted
binding or was already there. -/
theorem any_of_any_dictInsert {α : Type} (k : String) (v : α) (l : List (String × α))
    (f : String × α → Bool) (h : (dictInsert k v l).any f = true) :
    f (k, v) = true ∨ l.any f = true := by
  induction l with
  | nil =>
      left
      simpa [dictInsert] using h
  | cons p rest ih =>
      obtain ⟨k', v'⟩ := p
      by_cases hk : k' == k
      · rw [show dictInsert k v ((k', v') :: rest) = (k, v) :: rest by simp [dictInsert, hk]] at h
        rcases List.any_eq_true.mp h with ⟨x, hx, hfx⟩
        rcases List.mem_cons.mp hx with rfl | hx2
        · exact Or.inl hfx
        · exact Or.inr (List.any_eq_true.mpr ⟨x, List.mem_cons_of_mem _ hx2, hfx⟩)
      · rw [show dictInsert k v ((k', v') :: rest) = (k', v') :: dictInsert k v rest by
          simp [dictInsert, hk]] at h
        rcases List.any_eq_true.mp h with ⟨x, hx, hfx⟩
        rcases List.mem_cons.mp hx with rfl | hx2
        · exact Or.inr (List.any_eq_true.mpr ⟨(k', v'), List.mem_cons_self _ _, hfx⟩)
        · rcases ih (List.any_eq_true.mpr ⟨x, hx2, hfx⟩) with h1 | h1
          · exact Or.inl h1
          · rcases List.any_eq_true.mp h1 with ⟨y, hy, hfy⟩
            exact Or.inr (List.any_eq_true.mpr ⟨y, List.mem_cons_of_mem _ hy, hfy⟩)

/-- Helper: inserting a binding for a market the account does not yet run
preserves the per-account invariant. -/
theorem no_dup_symbols_dictInsert (tid sym : String) (l : List (String × String))
    (hfree : l.any (fun p => p.2 == sym) = false) (hnd : no_dup_symbols l = true) :
    no_dup_symbols (dictInsert tid sym l) = true := by
  induction l with
  | nil => simp [dictInsert, no_dup_symbols]
  | cons p rest ih =>
      obtain ⟨k', s'⟩ := p
      simp only [List.any_cons, Bool.or_eq_false_iff] at hfree
      obtain ⟨hh, ht⟩ := hfree
      simp only [no_dup_symbols, Bool.and_eq_true, Bool.not_eq_true'] at hnd
      obtain ⟨hnd1, hnd2⟩ := hnd
      by_cases hk : k' == tid
      · rw [show dictInsert tid sym ((k', s') :: rest) = (tid, sym) :: rest by
          simp [dictInsert, hk]]
        simp only [no_dup_symbols, Bool.and_eq_true, Bool.not_eq_true']
        exact ⟨ht, hnd2⟩
      · rw [show dictInsert tid sym ((k', s') :: rest) = (k', s') :: dictInsert tid sym rest by
          simp [dictInsert, hk]]
        simp only [no_dup_symbols, Bool.and_eq_true, Bool.not_eq_true']
        constructor
        · by_contra hc
          rw [Bool.not_eq_false] at hc
          rcases any_of_any_dictInsert tid sym rest _ hc with h1 | h1
          · have hss : sym = s' := by simpa using h1
            have hne : s' ≠ sym := by simpa using hh
            exact hne hss.symm
          · rw [hnd1] at h1
            cases h1
        · exact ih ht hnd2

/-- Helper: any match surviving `eraseP` was already present. -/
theorem any_of_any_eraseP {α : Type} (l : List α) (q : α → Bool) (f : α → Bool)
    (h : (l.eraseP q).any f = true) : l.any f = true := by
  rcases List.any_eq_true.mp h with ⟨x, hx, hfx⟩
  exact List.any_eq_true.mpr ⟨x, (List.eraseP_sublist l).mem hx, hfx⟩

/-- Helper: removing a binding preserves the per-account invariant. -/
theorem no_dup_symbols_eraseP (l : List (String × String)) (q : String × String → Bool)
    (hnd : no_dup_symbols l = true) : no_dup_symbols (l.eraseP q) = true := by
  induction l with
  | nil => simpa using hnd
  | cons p rest ih =>
      simp only [no_dup_symbols, Bool.and_eq_true, Bool.not_eq_true'] at hnd
      obtain ⟨hnd1, hnd2⟩ := hnd
      by_cases hq : q p
      · have hcons : (p :: rest).eraseP q = rest := by
          simp [List.eraseP_cons, hq]
        rw [hcons]
        exact hnd2
      · have hcons : (p :: rest).eraseP q = p :: rest.eraseP q := by
          simp [List.eraseP_cons, hq]
        rw [hcons]
        simp only [no_dup_symbols, Bool.and_eq_true, Bool.not_eq_true']
        constructor
        · by_contra hc
          rw [Bool.not_eq_false] at hc
          have h2 := any_of_any_eraseP rest q _ hc
          rw [hnd1] at h2
          cases h2
        · exact ih hnd2

/-- Helper: updating one account's dict with a binding removal preserves the
invariant. -/
theorem occ_map_ok_dictUpdate_pop (m : List (String × List (String × String)))
    (aid tid : String) (h : occ_map_ok m = true) :
    occ_map_ok (dictUpdate aid (dictPop tid) m) = true := by
  rw [occ_map_ok, List.all_eq_true]
  intro e he
  rcases List.mem_map.mp he with ⟨p, hp, hpe⟩
  have hpok : no_dup_symbols p.2 = true := by
    have := (List.all_eq_true.mp h) p hp
    exact this
  by_cases hk : p.1 == aid
  · rw [if_pos hk] at hpe
    rw [← hpe]
    exact no_dup_symbols_eraseP p.2 _ hpok
  · rw [if_neg hk] at hpe
    rw [← hpe]
    exact hpok

/-- Helper: removing a finished task's bindings preserves the invariant. -/
theorem occ_map_ok_pop_task_accounts (m : List (String × List (String × String)))
    (task : EngTask) (h : occ_map_ok m = true) :
    occ_map_ok (pop_task_accounts m task) = true := by
  unfold pop_task_accounts
  simp only [List.foldl_cons, List.foldl_nil]
  have step : ∀ (m' : List (String × List (String × String))) (aid : String),
      occ_map_ok m' = true →
      occ_map_ok (match m'.lookup aid with
        | none => m'
        | some _ => dictUpdate aid (dictPop task.id) m') = true := by
    intro m' aid hm'
    rcases m'.lookup aid with _ | v
    · exact hm'
    · exact occ_map_ok_dictUpdate_pop m' aid task.id hm'
  exact step _ _ (step _ _ h)

/-- Helper: the sweep preserves the invariant, in both the clean and the
raising case. -/
theorem occ_map_ok_remove_finished_go (l : List (String × EngTask)) (st : EngineState)
    (acc : List String) (h : occupancy_ok st = true) :
    occupancy_ok (remove_finished_go l st acc).1 = true := by
  induction l generalizing st acc with
  | nil => simpa [remove_finished_go, occupancy_ok] using h
  | cons q rest ih =>
      obtain ⟨tid, task⟩ := q
      simp only [remove_finished_go]
      split
      · exact ih _ _ (by
          simpa [occupancy_ok] using occ_map_ok_pop_task_accounts _ task h)
      · split
        · simpa [occupancy_ok] using occ_map_ok_pop_task_accounts _ task h
        · exact ih _ _ h
/-- No two bindings of the occupancy index share an account id (Python dict
keys are unique; the assoc-list embedding must carry this as an invariant). -/
def no_dup_keys {α : Type} : List (String × α) → Bool
  | [] => true
  | p :: rest => !(rest.any (fun q => q.1 == p.1)) && no_dup_keys rest

/-- Helper: `dictUpdate` does not change which keys match a predicate. -/
theorem any_fst_dictUpdate {α : Type} (k : String) (f : α → α) (l : List (String × α))
    (g : String → Bool) :
    (dictUpdate k f l).any (fun q => g q.1) = l.any (fun q => g q.1) := by
  induction l with
  | nil => rfl
  | cons p rest ih =>
      show ((if p.1 == k then (p.1, f p.2) else p) :: dictUpdate k f rest).any _ = _
      rw [List.any_cons, List.any_cons, ih]
      congr 1
      split <;> rfl

/-- Helper: `dictUpdate` preserves key uniqueness. -/
theorem no_dup_keys_dictUpdate {α : Type} (k : String) (f : α → α) (l : List (String × α))
    (h : no_dup_keys l = true) : no_dup_keys (dictUpdate k f l) = true := by
  induction l with
  | nil => rfl
  | cons p rest ih =>
      simp only [no_dup_keys, Bool.and_eq_true, Bool.not_eq_true'] at h
      obtain ⟨h1, h2⟩ := h
      show no_dup_keys ((if p.1 == k then (p.1, f p.2) else p) :: dictUpdate k f rest) = true
      simp only [no_dup_keys, Bool.and_eq_true, Bool.not_eq_true']
      refine ⟨?_, ih h2⟩
      have hfst : ((if p.1 == k then (p.1, f p.2) else p)).1 = p.1 := by split <;> rfl
      rw [hfst, any_fst_dictUpdate k f rest (fun s => s == p.1)]
      exact h1

/-- Helper: a key absent from the lookup matches no binding. -/
theorem lookup_none_any_fst {α : Type} (l : List (String × α)) (k : String)
    (h : l.lookup k = none) : l.any (fun q => q.1 == k) = false := by
  induction l with
  | nil => rfl
  | cons p rest ih =>
      by_cases hk : k == p.1
      · rw [List.lookup_cons] at h
        simp only [hk] at h
        cases h
      · rw [List.lookup_cons] at h
        simp only [hk] at h
        have hne : p.1 ≠ k := fun he => (by simpa [he] using hk)
        simp only [List.any_cons, Bool.or_eq_false_iff]
        exact ⟨beq_eq_false_iff_ne.mpr hne, ih h⟩

/-- Helper: appending a binding for a fresh key preserves key uniqueness. -/
theorem no_dup_keys_append_fresh {α : Type} (l : List (String × α)) (k : String) (v : α)
    (hfresh : l.any (fun q => q.1 == k) = false) (h : no_dup_keys l = true) :
    no_dup_keys (l ++ [(k, v)]) = true := by
  induction l with
  | nil => simp [no_dup_keys]
  | cons p rest ih =>
      simp only [List.any_cons, Bool.or_eq_false_iff] at hfresh
      obtain ⟨hh, ht⟩ := hfresh
      simp only [no_dup_keys, Bool.and_eq_true, Bool.not_eq_true'] at h
      obtain ⟨h1, h2⟩ := h
      rw [List.cons_append]
      simp only [no_dup_keys, Bool.and_eq_true, Bool.not_eq_true']
      refine ⟨?_, ih ht h2⟩
      rw [List.any_append, Bool.or_eq_false_iff]
      refine ⟨h1, ?_⟩
      simp only [List.any_cons, List.any_nil, Bool.or_false]
      have hne : p.1 ≠ k := by simpa using hh
      exact beq_eq_false_iff_ne.mpr (fun he => hne he.symm)

/-- Helper: a successful lookup yields a member binding. -/
theorem lookup_mem {α : Type} (l : List (String × α)) (k : String) (v : α)
    (h : l.lookup k = some v) : (k, v) ∈ l := by
  induction l with
  | nil => cases h
  | cons p rest ih =>
      rw [List.lookup_cons] at h
      by_cases hk : k == p.1
      · simp only [hk] at h
        obtain ⟨k', v'⟩ := p
        have hkk : k = k' := by simpa using hk
        have hvv : v' = v := by simpa using h
        subst hkk; subst hvv
        exact List.mem_cons_self _ _
      · simp only [hk] at h
        exact List.mem_cons_of_mem _ (ih h)

/-- Helper: a key occurring in the key column is found by lookup. -/
theorem lookup_isSome_of_mem_keys {α : Type} (l : List (String × α)) (k : String)
    (h : k ∈ l.map Prod.fst) : ∃ v, l.lookup k = some v := by
  induction l with
  | nil => cases h
  | cons p rest ih =>
      by_cases hk : k == p.1
      · exact ⟨p.2, by rw [List.lookup_cons]; simp only [hk]⟩
      · rw [List.map_cons, List.mem_cons] at h
        rcases h with h | h
        · exact absurd (by simpa using h) (by simpa using hk)
        · rcases ih h with ⟨v, hv⟩
          exact ⟨v, by rw [List.lookup_cons]; simp only [hk]; exact hv⟩

/-- Helper: under unique keys, lookup finds exactly the member binding. -/
theorem lookup_eq_of_mem_of_no_dup_keys {α : Type} (l : List (String × α)) (k : String) (v : α)
    (hmem : (k, v) ∈ l) (hnd : no_dup_keys l = true) : l.lookup k = some v := by
  induction l with
  | nil => cases hmem
  | cons p rest ih =>
      simp only [no_dup_keys, Bool.and_eq_true, Bool.not_eq_true'] at hnd
      obtain ⟨h1, h2⟩ := hnd
      rcases List.mem_cons.mp hmem with he | hmem2
      · rw [← he, List.lookup_cons]
        simp
      · by_cases hk : k == p.1
        · have hkeq : k = p.1 := by simpa using hk
          have : rest.any (fun q => q.1 == p.1) = true :=
            List.any_eq_true.mpr ⟨(k, v), hmem2, by simp [hkeq]⟩
          rw [h1] at this
          cases this
        · rw [List.lookup_cons]
          simp only [hk]
          exact ih hmem2 h2

/-- Helper: indexing modulo the length of a nonempty list yields a member. -/
theorem getD_mod_mem {α : Type} (l : List α) (i : Nat) (d : α) (h : l ≠ []) :
    l.getD (i % l.length) d ∈ l := by
  have hlt : i % l.length < l.length := Nat.mod_lt _ (List.length_pos.mpr h)
  rw [List.getD_eq_getElem?_getD, List.getElem?_eq_getElem hlt, Option.getD_some]
  exact List.getElem_mem hlt
/-- Helper: appending a binding for a different key does not change a lookup. -/
theorem lookup_append_single_ne {α : Type} (l : List (String × α)) (a k : String) (v : α)
    (hne : k ≠ a) : (l ++ [(a, v)]).lookup k = l.lookup k := by
  induction l with
  | nil =>
      show [(a, v)].lookup k = none
      rw [List.lookup_cons]
      simp only [beq_eq_false_iff_ne.mpr hne]
      rfl
  | cons p rest ih =>
      rw [List.cons_append, List.lookup_cons, List.lookup_cons]
      by_cases hk : k == p.1
      · simp only [hk]
      · simp only [hk]
        exact ih

/-- Helper: updating a different key's value does not change a lookup. -/
theorem lookup_dictUpdate_ne {α : Type} (l : List (String × α)) (a k : String) (f : α → α)
    (hne : k ≠ a) : (dictUpdate a f l).lookup k = l.lookup k := by
  induction l with
  | nil => rfl
  | cons p rest ih =>
      show ((if p.1 == a then (p.1, f p.2) else p) :: dictUpdate a f rest).lookup k = _
      by_cases ha : p.1 == a
      · have hk : (k == p.1) = false :=
          beq_eq_false_iff_ne.mpr (fun he => hne (he.trans (by simpa using ha)))
        rw [if_pos ha, List.lookup_cons, List.lookup_cons]
        simp only [hk]
        exact ih
      · rw [if_neg ha, List.lookup_cons, List.lookup_cons]
        by_cases hk : k == p.1
        · simp only [hk]
        · simp only [hk]
          exact ih

/-- Helper: binding one account in the occupancy index leaves other accounts'
lookups unchanged. -/
theorem lookup_account_map_add_ne (m : List (String × List (String × String)))
    (a k tid sym : String) (hne : k ≠ a) :
    (account_map_add m a tid sym).lookup k = m.lookup k := by
  rw [account_map_add]
  cases hl : m.lookup a with
  | none => exact lookup_append_single_ne m a k _ hne
  | some tasks => exact lookup_dictUpdate_ne m a k _ hne

/-- The eligibility fact `generate_available_account_symbols` checks per
account: no running task of this account is bound to this market (the second
conjunct of the per-account test at lines 80–88). -/
def acct_sym_free (m : List (String × List (String × String))) (aid sym : String) : Bool :=
  match m.lookup aid with
  | none => true
  | some tasks => !(tasks.any (fun p => p.2 == sym))

/-- Helper: eligibility of an account for a market implies the occupancy
freedom fact. -/
theorem account_eligible_free (st : EngineState) (sym aid : String) (syms : List String)
    (h : account_eligible st sym aid syms = true) :
    acct_sym_free st.account_running_tasks aid sym = true := by
  rw [account_eligible, Bool.and_eq_true] at h
  rw [acct_sym_free]
  exact h.2

/-- Helper: binding one account leaves the freedom fact of another account
unchanged. -/
theorem acct_sym_free_account_map_add_ne (m : List (String × List (String × String)))
    (a k tid sym sym2 : String) (hne : k ≠ a) :
    acct_sym_free (account_map_add m a tid sym2) k sym = acct_sym_free m k sym := by
  rw [acct_sym_free, acct_sym_free, lookup_account_map_add_ne m a k tid sym2 hne]

/-- Helper: binding an account preserves key uniqueness of the index. -/
theorem no_dup_keys_account_map_add (m : List (String × List (String × String)))
    (aid tid sym : String) (hnd : no_dup_keys m = true) :
    no_dup_keys (account_map_add m aid tid sym) = true := by
  rw [account_map_add]
  cases hl : m.lookup aid with
  | none => exact no_dup_keys_append_fresh m aid _ (lookup_none_any_fst m aid hl) hnd
  | some tasks => exact no_dup_keys_dictUpdate aid _ m hnd

/-- Helper: binding an account that currently runs no task on the market
preserves the occupancy invariant. -/
theorem occ_map_ok_account_map_add (m : List (String × List (String × String)))
    (aid tid sym : String) (hfree : acct_sym_free m aid sym = true)
    (hnd : no_dup_keys m = true) (hok : occ_map_ok m = true) :
    occ_map_ok (account_map_add m aid tid sym) = true := by
  rw [account_map_add]
  cases hl : m.lookup aid with
  | none =>
      rw [occ_map_ok, List.all_append]
      rw [occ_map_ok] at hok
      rw [hok]
      simp [no_dup_symbols]
  | some tasks =>
      rw [occ_map_ok, List.all_eq_true]
      intro e he
      rcases List.mem_map.mp he with ⟨p, hp, hpe⟩
      have hpok : no_dup_symbols p.2 = true := (List.all_eq_true.mp hok) p hp
      by_cases hk : p.1 == aid
      · rw [if_pos hk] at hpe
        have hkeq : p.1 = aid := by simpa using hk
        have hlk : m.lookup aid = some p.2 := by
          rw [← hkeq]
          exact lookup_eq_of_mem_of_no_dup_keys m p.1 p.2 (by simpa using hp) hnd
        have htp : tasks = p.2 := by
          rw [hl] at hlk
          simpa using hlk
        rw [acct_sym_free, hl, Bool.not_eq_true'] at hfree
        rw [← hpe]
        exact no_dup_symbols_dictInsert tid sym p.2 (htp ▸ hfree) hpok
      · rw [if_neg hk] at hpe
        rw [← hpe]
        exact hpok

/-- Helper: removing a finished task's bindings preserves key uniqueness. -/
theorem no_dup_keys_pop_task_accounts (m : List (String × List (String × String)))
    (task : EngTask) (h : no_dup_keys m = true) :
    no_dup_keys (pop_task_accounts m task) = true := by
  unfold pop_task_accounts
  simp only [List.foldl_cons, List.foldl_nil]
  have step : ∀ (m' : List (String × List (String × String))) (aid : String),
      no_dup_keys m' = true →
      no_dup_keys (match m'.lookup aid with
        | none => m'
        | some _ => dictUpdate aid (dictPop task.id) m') = true := by
    intro m' aid hm'
    rcases m'.lookup aid with _ | v
    · exact hm'
    · exact no_dup_keys_dictUpdate aid _ m' hm'
  exact step _ _ (step _ _ h)

/-- Helper: the sweep preserves key uniqueness of the occupancy index. -/
theorem no_dup_keys_remove_finished_go (l : List (String × EngTask)) (st : EngineState)
    (acc : List String) (h : no_dup_keys st.account_running_tasks = true) :
    no_dup_keys (remove_finished_go l st acc).1.account_running_tasks = true := by
  induction l generalizing st acc with
  | nil => simpa [remove_finished_go] using h
  | cons q rest ih =>
      obtain ⟨tid, task⟩ := q
      simp only [remove_finished_go]
      split
      · exact ih _ _ (by simpa using no_dup_keys_pop_task_accounts _ task h)
      · split
        · simpa using no_dup_keys_pop_task_accounts _ task h
        · exact ih _ _ h
/-- The key column of the eligible-markets dict in `generate_next_task`. -/
def gnt_keys (st : EngineState) : List String :=
  (generate_available_account_symbols st).map Prod.fst

/-- The market picked by `generate_next_task` (`random.choice` of the keys). -/
def gnt_sym (st : EngineState) (c : GenChoice) : String :=
  (gnt_keys st).getD (c.symIdx % (gnt_keys st).length) ""

/-- The eligible-account list of the picked market. -/
def gnt_ids (st : EngineState) (c : GenChoice) : List String :=
  ((generate_available_account_symbols st).lookup (gnt_sym st c)).getD []

/-- The first picked account. -/
def gnt_a1 (st : EngineState) (c : GenChoice) : String :=
  (gnt_ids st c).getD (c.aIdx % (gnt_ids st c).length) ""

/-- The remaining accounts after removing the first pick. -/
def gnt_rem (st : EngineState) (c : GenChoice) : List String :=
  (gnt_ids st c).erase (gnt_a1 st c)

/-- The second picked account. -/
def gnt_a2 (st : EngineState) (c : GenChoice) : String :=
  (gnt_rem st c).getD (c.bIdx % (gnt_rem st c).length) ""

/-- `generate_next_task` written with its intermediate lets named. -/
theorem generate_next_task_eq (st : EngineState) (c : GenChoice) :
    generate_next_task st c =
      if (generate_available_account_symbols st).length = 0 then none
      else if (gnt_ids st c).length < 2 then none
      else if gnt_a1 st c = gnt_a2 st c then none
      else some (gnt_sym st c, gnt_a1 st c, gnt_a2 st c) := rfl

/-- Helper: when any market is eligible, the picked market's account list is
found by lookup and has at least two entries (every entry of the dict passed
the `len >= 2` filter, and the picked key is one of the dict's keys). -/
theorem gnt_ids_spec (st : EngineState) (c : GenChoice)
    (h : generate_available_account_symbols st ≠ []) :
    (generate_available_account_symbols st).lookup (gnt_sym st c) = some (gnt_ids st c) ∧
    2 ≤ (gnt_ids st c).length := by
  have hkeys : gnt_keys st ≠ [] := by
    rw [gnt_keys]
    simpa using h
  have hmem : gnt_sym st c ∈ gnt_keys st := getD_mod_mem _ _ _ hkeys
  rw [gnt_keys] at hmem
  rcases lookup_isSome_of_mem_keys _ _ hmem with ⟨ids, hids⟩
  have hgnt : gnt_ids st c = ids := by rw [gnt_ids, hids, Option.getD_some]
  have hmem2 := lookup_mem _ _ _ hids
  rw [generate_available_account_symbols] at hmem2
  have hlen := of_decide_eq_true (List.mem_filter.mp hmem2).2
  exact ⟨by rw [hgnt]; exact hids, by rw [hgnt]; exact hlen⟩

/-- Helper: a successful generation picks its market from the eligible dict
and its two distinct accounts from that market's eligible list. -/
theorem generate_next_task_some (st : EngineState) (c : GenChoice) (sym a1 a2 : String)
    (h : generate_next_task st c = some (sym, a1, a2)) :
    (generate_available_account_symbols st).lookup sym = some (gnt_ids st c) ∧
    2 ≤ (gnt_ids st c).length ∧ a1 ∈ gnt_ids st c ∧ a2 ∈ gnt_ids st c ∧ a1 ≠ a2 := by
  rw [generate_next_task_eq] at h
  split_ifs at h with h1 h2 h3
  have hp : gnt_sym st c = sym ∧ gnt_a1 st c = a1 ∧ gnt_a2 st c = a2 := by
    have hinj := Option.some.inj h
    simpa [Prod.ext_iff] using hinj
  obtain ⟨hsym, ha1, ha2⟩ := hp
  have hne : generate_available_account_symbols st ≠ [] := by
    intro hnil
    exact h1 (by rw [hnil]; rfl)
  obtain ⟨hlk, hlen⟩ := gnt_ids_spec st c hne
  have hids_ne : gnt_ids st c ≠ [] := by
    intro hnil
    rw [hnil] at hlen
    simp at hlen
  have hm1 : gnt_a1 st c ∈ gnt_ids st c := getD_mod_mem _ _ _ hids_ne
  have hrem_ne : gnt_rem st c ≠ [] := by
    rw [gnt_rem]
    intro hnil
    have hl := List.length_erase_of_mem hm1
    rw [hnil] at hl
    simp only [List.length_nil] at hl
    omega
  have hm2' : gnt_a2 st c ∈ gnt_rem st c := getD_mod_mem _ _ _ hrem_ne
  have hm2 : gnt_a2 st c ∈ gnt_ids st c := List.mem_of_mem_erase hm2'
  refine ⟨hsym ▸ hlk, hlen, ha1 ▸ hm1, ha2 ▸ hm2, ?_⟩
  rw [← ha1, ← ha2]
  exact h3

/-- Helper: membership in an eligible-account list implies the account runs
no task on that market. -/
theorem eligible_sym_free (st : EngineState) (sym a : String) (ids : List String)
    (hlk : (generate_available_account_symbols st).lookup sym = some ids) (ha : a ∈ ids) :
    acct_sym_free st.account_running_tasks a sym = true := by
  have hmem := lookup_mem _ _ _ hlk
  rw [generate_available_account_symbols] at hmem
  have hmem2 := (List.mem_filter.mp hmem).1
  rcases List.mem_map.mp hmem2 with ⟨s, hs, heq⟩
  have hseq : s = sym := congrArg Prod.fst heq
  have hideq : (st.accounts.filter (fun p => account_eligible st s p.1 p.2)).map Prod.fst = ids :=
    congrArg Prod.snd heq
  rw [← hideq] at ha
  rcases List.mem_map.mp ha with ⟨p, hp, hpa⟩
  have helig := (List.mem_filter.mp hp).2
  rw [hseq] at helig
  rw [← hpa]
  exact account_eligible_free st sym p.1 p.2 helig

/-- Helper: launching a freshly generated task preserves the occupancy
invariant and key uniqueness — eligibility of both accounts means neither
already runs a task on the picked market. -/
theorem occupancy_launch (st : EngineState) (c : GenChoice) (sym a1 a2 : String)
    (h : generate_next_task st c = some (sym, a1, a2))
    (hok : occupancy_ok st = true) (hnd : no_dup_keys st.account_running_tasks = true) :
    occupancy_ok (launch_task st c.tid sym a1 a2) = true ∧
    no_dup_keys (launch_task st c.tid sym a1 a2).account_running_tasks = true := by
  obtain ⟨hlk, hlen, hm1, hm2, hne⟩ := generate_next_task_some st c sym a1 a2 h
  have hf1 := eligible_sym_free st sym a1 _ hlk hm1
  have hf2 := eligible_sym_free st sym a2 _ hlk hm2
  rw [occupancy_ok] at hok
  have hok1 := occ_map_ok_account_map_add _ a1 c.tid sym hf1 hnd hok
  have hnd1 := no_dup_keys_account_map_add st.account_running_tasks a1 c.tid sym hnd
  have hf2' : acct_sym_free (account_map_add st.account_running_tasks a1 c.tid sym) a2 sym
      = true := by
    rw [acct_sym_free_account_map_add_ne _ _ _ _ _ _ hne.symm]
    exact hf2
  have hok2 := occ_map_ok_account_map_add _ a2 c.tid sym hf2' hnd1 hok1
  have hnd2 := no_dup_keys_account_map_add _ a2 c.tid sym hnd1
  exact ⟨hok2, hnd2⟩
/-- One scheduler step: a task launch (guarded by a successful generation,
`task_runner` lines 163–175), a finished-task sweep (line 158), an
asynchronous task-status change by a running task's coroutine, or a flip of
the ambient signal flags. -/
inductive EngStep : EngineState → EngineState → Prop where
  | launch (st : EngineState) (c : GenChoice) (sym a1 a2 : String)
      (h : generate_next_task st c = some (sym, a1, a2)) :
      EngStep st (launch_task st c.tid sym a1 a2)
  | sweep (st : EngineState) : EngStep st (remove_finished_tasks st).1
  | setStatus (st : EngineState) (tid : String) (s : RushTaskStatus) :
      EngStep st
        { st with
          running_tasks := dictUpdate tid (fun t => { t with status := s }) st.running_tasks }
  | setFlags (st : EngineState) (b e : Bool) :
      EngStep st { st with stop_flag := b, error_flag := e }

/-- Reachability of scheduler states. -/
def EngReachable (st0 st : EngineState) : Prop :=
  Relation.ReflTransGen EngStep st0 st

/-- The inductive invariant: the claimed occupancy exclusivity together with
key uniqueness of the index (Python dict keys are unique, which the
assoc-list embedding must carry along). -/
def eng_inv (st : EngineState) : Prop :=
  occupancy_ok st = true ∧ no_dup_keys st.account_running_tasks = true

/-- `RushEngine.__init__`: all task collections and the occupancy index
start empty. -/
def init_engine (symbols : List String) (accounts : List (String × List String)) :
    EngineState :=
  { symbols := symbols, accounts := accounts, running_tasks := [], completed_tasks := [],
    failed_tasks := [], account_running_tasks := [], stop_flag := false, error_flag := false }

/-- Helper: every scheduler step preserves the invariant. -/
theorem eng_inv_step {st st' : EngineState} (h : EngStep st st') (hi : eng_inv st) :
    eng_inv st' := by
  obtain ⟨hok, hnd⟩ := hi
  cases h with
  | launch c sym a1 a2 hg => exact occupancy_launch st c sym a1 a2 hg hok hnd
  | sweep =>
      exact ⟨occ_map_ok_remove_finished_go st.running_tasks st [] hok,
        no_dup_keys_remove_finished_go st.running_tasks st [] hnd⟩
  | setStatus tid s => exact ⟨hok, hnd⟩
  | setFlags b e => exact ⟨hok, hnd⟩

/-- Helper: the invariant holds in every state reachable from a state
satisfying it. -/
theorem eng_inv_reach (st0 st : EngineState) (h0 : eng_inv st0)
    (h : Relation.ReflTransGen EngStep st0 st) : eng_inv st := by
  induction h with
  | refl => exact h0
  | tail hpre hstep ih => exact eng_inv_step hstep ih
/-- **C2.** At every scheduler step the account-occupancy index never maps
one account id to two running tasks bound to the same market: in every
state reachable from a freshly initialised engine, every account's
occupancy dict binds each market at most once (`occupancy_ok`).  The
eligibility filter of `generate_available_account_symbols` blocks a launch
on an account already running a task on the picked market, and the sweep
only removes bindings. -/
theorem c2_occupancy_exclusive (symbols : List String)
    (accounts : List (String × List String)) (st : EngineState)
    (h : EngReachable (init_engine symbols accounts) st) :
    occupancy_ok st = true :=
  (eng_inv_reach (init_engine symbols accounts) st ⟨rfl, rfl⟩ h).1

/-- Concrete initial engine for the C2 witness: one market, two accounts. -/
def c2w_state : EngineState :=
  init_engine ["BTCUSDT"] [("A1", ["BTCUSDT"]), ("B1", ["BTCUSDT"])]

/-- Concrete random draws for the C2 witness. -/
def c2w_choice : GenChoice := { symIdx := 0, aIdx := 0, bIdx := 0, tid := "t1" }

theorem c2_witness :
    occupancy_ok (launch_task c2w_state c2w_choice.tid "BTCUSDT" "A1" "B1") = true :=
  c2_occupancy_exclusive ["BTCUSDT"] [("A1", ["BTCUSDT"]), ("B1", ["BTCUSDT"])] _
    (Relation.ReflTransGen.single
      (EngStep.launch c2w_state c2w_choice "BTCUSDT" "A1" "B1" (by decide)))
/-! ## Claim C8: task generation -/

/-- The degenerate random pick of `generate_next_task`: the second draw
(from the list with the first pick removed) coincides with the first draw,
which happens when the eligible list holds the same id twice (source line
117: `if first_account_id == second_account_id: return None`). -/
def degenerate_pick (st : EngineState) (c : GenChoice) : Bool :=
  gnt_a1 st c == gnt_a2 st c

/-- **C8.** `generate_next_task` returns `none` exactly when no eligible
market exists (markets with fewer than two eligible accounts having been
dropped by `generate_available_account_symbols`) or when the random pick
degenerates to the same account twice; and every returned task is bound to
an eligible market and to two distinct accounts drawn from that market's
eligible list.  (The middle `len < 2` early return of the source is
unreachable: every entry of the eligible dict already passed the
two-account filter.) -/
theorem c8_generate_task_contract (st : EngineState) (c : GenChoice) :
    (generate_next_task st c = none ↔
      generate_available_account_symbols st = [] ∨ degenerate_pick st c = true) ∧
    (∀ sym a1 a2, generate_next_task st c = some (sym, a1, a2) →
      (generate_available_account_symbols st).lookup sym = some (gnt_ids st c) ∧
        2 ≤ (gnt_ids st c).length ∧ a1 ∈ gnt_ids st c ∧ a2 ∈ gnt_ids st c ∧ a1 ≠ a2) := by
  constructor
  · constructor
    · intro h
      by_cases h1 : (generate_available_account_symbols st).length = 0
      · exact Or.inl (List.length_eq_zero.mp h1)
      · have hne : generate_available_account_symbols st ≠ [] := by
          intro hnil
          exact h1 (by rw [hnil]; rfl)
        have hlen := (gnt_ids_spec st c hne).2
        rw [generate_next_task_eq, if_neg h1, if_neg (by omega)] at h
        by_cases h3 : gnt_a1 st c = gnt_a2 st c
        · exact Or.inr (beq_iff_eq.mpr h3)
        · rw [if_neg h3] at h
          cases h
    · intro h
      rcases h with h | h
      · rw [generate_next_task_eq, h]
        rfl
      · have hdeg : gnt_a1 st c = gnt_a2 st c := beq_iff_eq.mp h
        rw [generate_next_task_eq]
        by_cases h1 : (generate_available_account_symbols st).length = 0
        · rw [if_pos h1]
        · rw [if_neg h1]
          by_cases h2 : (gnt_ids st c).length < 2
          · rw [if_pos h2]
          · rw [if_neg h2, if_pos hdeg]
  · intro sym a1 a2 h
    exact generate_next_task_some st c sym a1 a2 h

/-- Concrete engine state for the C8 witness: one market, two accounts. -/
def c8w_state : EngineState :=
  init_engine ["ETHUSDT"] [("A1", ["ETHUSDT"]), ("B1", ["ETHUSDT"])]

/-- Concrete random draws for the C8 witness. -/
def c8w_choice : GenChoice := { symIdx := 0, aIdx := 0, bIdx := 0, tid := "t2" }

theorem c8_witness :
    generate_next_task c8w_state c8w_choice = some ("ETHUSDT", "A1", "B1") ∧
    ((generate_available_account_symbols c8w_state).lookup "ETHUSDT"
        = some (gnt_ids c8w_state c8w_choice) ∧
      2 ≤ (gnt_ids c8w_state c8w_choice).length ∧ "A1" ∈ gnt_ids c8w_state c8w_choice ∧
      "B1" ∈ gnt_ids c8w_state c8w_choice ∧ "A1" ≠ "B1") :=
  ⟨by decide,
    (c8_generate_task_contract c8w_state c8w_choice).2 "ETHUSDT" "A1" "B1" (by decide)⟩
